import Mathlib

/-!
Verification of the local compute worker
(`substra/sdk/backends/local/compute/worker.py`).

The worker schedules ML tuples (train, composite train, aggregate, test) as
containerized jobs.  We give a shallow embedding: the filesystem is a list of
existing paths, the compute-plan store is an association list, external
collaborators (asset store, container spawner, JSON parsing, file hashing) are
oracles supplied in an environment record, and each schedule call is a pure
function from tuple and state to a result, a final tuple and a final state,
together with a trace of effects (links, copies, container spawns).
-/

namespace Substra

/-- Tuple status, modelled from the spec (Waiting, Doing, Done, Failed).
The source uses `models.Status.doing` and `models.Status.done`; the `models`
module itself is outside the sources, so the set of statuses follows the
spec's state machine. -/
inductive Status where
  | waiting
  | doing
  | done
  | failed
deriving DecidableEq, Repr

/-- Errors that external calls and filesystem operations can raise.  The
taxonomy follows the exceptions reachable from the worker code: lookup
failures of the data access layer, download failures, container execution
failures, missing files on copy, JSON decoding failures, and the Python
`NameError` raised when an unassigned local variable is read. -/
inductive Err where
  | notFound
  | downloadError
  | executionError
  | fileNotFound
  | jsonDecodeError
  | nameError
  | attributeError
deriving DecidableEq, Repr

/-- A container volume specification: bind path inside the container and
access mode, as in the `_VOLUME_*` dictionaries of the source. -/
structure VolSpec where
  bind : String
  mode : String
deriving DecidableEq, Repr

def _CONTAINER_MODEL_PATH : String := "/sandbox/model"

def _VOLUME_INPUT_DATASAMPLES : VolSpec := { bind := "/sandbox/data", mode := "ro" }

def _VOLUME_MODELS_RO : VolSpec := { bind := _CONTAINER_MODEL_PATH, mode := "ro" }

def _VOLUME_MODELS_RW : VolSpec := { bind := _CONTAINER_MODEL_PATH, mode := "rw" }

def _VOLUME_OPENER : VolSpec := { bind := "/sandbox/opener/__init__.py", mode := "ro" }

def _VOLUME_OUTPUT_PRED : VolSpec := { bind := "/sandbox/pred", mode := "rw" }

def _VOLUME_LOCAL : VolSpec := { bind := "/sandbox/local", mode := "rw" }

def _VOLUME_INPUT_MODELS_RO : VolSpec := { bind := "/sandbox/input_models", mode := "ro" }

def _VOLUME_OUTPUT_MODELS_RW : VolSpec := { bind := "/sandbox/output_models", mode := "rw" }

/-- Modelled from the spec: the metrics mode constants `METRICS_FAKE_Y` and
`METRICS_NO_FAKE_Y` come from `substra.runner`, which is not among the
sources.  Per the spec they distinguish scoring against synthetic labels
from scoring against real labels; their concrete values are opaque, so we fix
two distinct strings. -/
def METRICS_FAKE_Y : String := "fake_y"

/-- Modelled from the spec: see `METRICS_FAKE_Y`. -/
def METRICS_NO_FAKE_Y : String := "no_fake_y"

/-- Modelled from the spec: the fixed metrics-scoring container tag
`DOCKER_METRICS_TAG` from `substra.runner` (not among the sources). -/
def DOCKER_METRICS_TAG : String := "substra/metrics"

/-! ## Filesystem model

The filesystem is the set of existing entries (directories and files),
represented as a duplicate-free list of absolute path strings. -/

/-- Prefix test on strings, by character list (as `str.startswith`). -/
def str_starts_with (s pre : String) : Bool :=
  pre.data.isPrefixOf s.data

/-- Suffix test on strings, by character list (as `str.endswith`). -/
def str_ends_with (s suf : String) : Bool :=
  suf.data.isSuffixOf s.data

/-- One fuelled pass of `str.replace`: replace every occurrence of `pat`
(left to right, non-overlapping), as Python does. -/
def strReplaceFuel (pat rep : List Char) : Nat → List Char → List Char
  | 0, l => l
  | _, [] => []
  | fuel + 1, c :: rest =>
    if pat.isPrefixOf (c :: rest) then
      rep ++ strReplaceFuel pat rep fuel ((c :: rest).drop pat.length)
    else c :: strReplaceFuel pat rep fuel rest

/-- Python `str.replace(pat, rep)` replacing every occurrence; every call
site of the source passes a non-empty pattern (a volume path), so the
empty-pattern behaviour is irrelevant and modelled as the identity. -/
def strReplace (s pat rep : String) : String :=
  if pat = "" then s
  else ⟨strReplaceFuel pat.data rep.data s.data.length s.data⟩

/-- Filesystem state: the list of existing entries. -/
structure FS where
  paths : List String
deriving DecidableEq, Repr

/-- Existence check (`os.path.exists`). -/
def FS.hasPath (fs : FS) (p : String) : Bool :=
  fs.paths.contains p

/-- Create an entry (`os.makedirs` or creating a file); no effect when the
entry already exists. -/
def FS.add (fs : FS) (p : String) : FS :=
  if fs.hasPath p then fs else ⟨p :: fs.paths⟩

/-- Whether `q` is `root` itself or lies strictly below directory `root`. -/
def pathUnder (root q : String) : Bool :=
  root = q || str_starts_with q (root ++ "/")

/-- Recursive directory removal (`shutil.rmtree`): removes the directory and
everything below it.  Total, hence it also models removal with
`ignore_errors=True` (absence is ignored). -/
def FS.rmtree (fs : FS) (p : String) : FS :=
  ⟨fs.paths.filter (fun q => !(pathUnder p q))⟩

/-- The `os.path.join` of the source for the call shapes that occur there:
an absolute second component wins, otherwise the components are joined with a
single separator. -/
def os_path_join (a b : String) : String :=
  if str_starts_with b "/" then b
  else if a = "" || str_ends_with a "/" then a ++ b
  else a ++ "/" ++ b

/-- The `_mkdir` helper of the source: make the directory (recursively);
when it already exists, either return it unchanged or, with
`delete_if_exists`, delete it and recreate it. -/
def _mkdir (fs : FS) (path : String) (delete_if_exists : Bool := false) : FS × String :=
  if fs.hasPath path then
    if !delete_if_exists then (fs, path)
    else ((fs.rmtree path).add path, path)
  else (fs.add path, path)

/-- The `_get_address_in_container` helper: join the model key onto the host
volume root, then replace the host root by the container bind path
(`str.replace` replaces every occurrence, as in Python). -/
def _get_address_in_container (model_key volume : String) (container_volume : VolSpec) : String :=
  strReplace (os_path_join volume model_key) volume container_volume.bind

/-- The `Worker._is_local` check: a key is local when it starts with the
`local_` marker. -/
def _is_local (key : String) : Bool :=
  str_starts_with key "local_"

/-! ## Assets and tuples -/

/-- An algorithm asset (`algo.key`, `algo.content.storage_address`). -/
structure Algo where
  key : String
  content_storage_address : String
deriving DecidableEq, Repr

/-- A dataset asset; `opener_storage_address` is `dataset.opener.storage_address`. -/
structure Dataset where
  key : String
  opener_storage_address : String
deriving DecidableEq, Repr

/-- A data sample asset (`sample.path`, `sample.pkhash`). -/
structure DataSample where
  path : String
  pkhash : String
deriving DecidableEq, Repr

/-- An objective asset; carries `test_dataset.data_sample_keys` and
`metrics.storage_address`. -/
structure Objective where
  key : String
  test_data_sample_keys : List String
  metrics_storage_address : String
deriving DecidableEq, Repr

/-- An input model reference (`model.key`, `model.storage_address`); also used
for the `in_head_model` / `in_trunk_model` of a composite traintuple. -/
structure InModel where
  key : String
  storage_address : String
deriving DecidableEq, Repr

/-- An output model descriptor (`models.OutModel`): content hash and
permanent storage address. -/
structure OutModel where
  hash_ : String
  storage_address : String
deriving DecidableEq, Repr

/-- An already stored output model of a previously executed train-type tuple,
as read by `schedule_testtuple` (`out_model.key`, `out_model.hash_`,
`out_model.storage_address`). -/
structure StoredModel where
  key : String
  hash_ : String
  storage_address : String
deriving DecidableEq, Repr

/-- A compute plan: progress counter, total tuple count and status. -/
structure ComputePlan where
  done_count : Nat
  tuple_count : Nat
  status : Status
deriving DecidableEq, Repr

/-- The `tuple_.dataset` sub-object: dataset key, data sample keys, and (for
test tuples) the performance slot. -/
structure TupleDataset where
  key : String
  keys : List String
  perf : Option Rat := none
deriving DecidableEq, Repr

/-- The Python class of a train-type tuple (`models.CompositeTraintuple`,
`models.Aggregatetuple`, or a plain traintuple), which the source
discriminates with `isinstance`. -/
inductive TrainKind where
  | traintuple
  | composite
  | aggregate
deriving DecidableEq, Repr

/-- A train-type tuple as consumed by `schedule_traintuple`.  Fields not
possessed by every Python variant are `Option`s; the slots `out_model`,
`out_head_model`, `out_trunk_model` are populated by the worker. -/
structure Traintuple where
  key : String
  kind : TrainKind
  rank : Int
  compute_plan_id : Option String
  algo_key : String
  dataset : TupleDataset
  in_models : Option (List InModel) := none
  in_head_model : Option InModel := none
  in_trunk_model : Option InModel := none
  status : Status := Status.waiting
  log : String := ""
  out_model : Option OutModel := none
  out_head_model : Option OutModel := none
  out_trunk_model : Option OutModel := none
deriving DecidableEq, Repr

/-- The `tuple_.traintuple_type` of a test tuple (`schemas.Type`). -/
inductive TraintupleType where
  | traintuple
  | aggregatetuple
  | composite_traintuple
deriving DecidableEq, Repr

/-- A test tuple as consumed by `schedule_testtuple`. -/
structure Testtuple where
  key : String
  compute_plan_id : Option String
  traintuple_type : TraintupleType
  traintuple_key : String
  objective_key : String
  dataset : TupleDataset
  status : Status := Status.waiting
  log : String := ""
deriving DecidableEq, Repr

/-- The train-type tuple fetched by `schedule_testtuple` via the data access
layer; only the fields the worker reads are kept. -/
structure FetchedTraintuple where
  algo_key : String
  out_model : Option StoredModel := none
  out_head_model : Option StoredModel := none
  out_trunk_model : Option StoredModel := none
deriving DecidableEq, Repr

/-! ## Worker state, effect trace and environments -/

/-- An observable effect of a schedule call. -/
inductive Event where
  | link (src dst : String)
  | copytree (src dst : String)
  | copyFile (src dst : String)
  | materializeData (dir : String)
  | spawn (container_name image command : String) (volumes : List (String × VolSpec))
deriving DecidableEq, Repr

/-- Workspace state threaded through the preparation / execution middle of a
schedule call: the filesystem and the effect trace.  The compute-plan store
is not part of it: the middle of a schedule call never touches plans. -/
structure Ws where
  fs : FS
  events : List Event
deriving DecidableEq, Repr

/-- Full mutable state of a schedule call: the workspace plus the
compute-plan store of the data access layer. -/
structure St where
  fs : FS
  plans : List (String × ComputePlan)
  events : List Event
deriving DecidableEq, Repr

/-- The workspace part of a full state. -/
def St.ws (s : St) : Ws := { fs := s.fs, events := s.events }

/-- Reassemble a full state from a compute-plan store and a workspace. -/
def wsSt (plans : List (String × ComputePlan)) (w : Ws) : St :=
  { fs := w.fs, plans := plans, events := w.events }

/-- Lookup in the compute-plan store (`db.get(schemas.Type.ComputePlan, id)`). -/
def lookupPlan (plans : List (String × ComputePlan)) (pid : String) : Option ComputePlan :=
  match plans with
  | [] => none
  | kv :: rest => if kv.1 = pid then some kv.2 else lookupPlan rest pid

/-- Write back a mutated compute plan under its id. -/
def setPlan (plans : List (String × ComputePlan)) (pid : String) (cp : ComputePlan) :
    List (String × ComputePlan) :=
  plans.map (fun kv => if kv.1 = pid then (kv.1, cp) else kv)

/-- Python dict insertion: replace the value in place when the key exists,
otherwise append (insertion order preserved, as for `volumes[k] = v`). -/
def dictSet (d : List (String × VolSpec)) (k : String) (v : VolSpec) :
    List (String × VolSpec) :=
  if d.any (fun kv => kv.1 = k) then d.map (fun kv => if kv.1 = k then (kv.1, v) else kv)
  else d ++ [(k, v)]

/-- Environment of `schedule_traintuple`: outcomes of the external calls.
`spawnResult` yields the captured logs and the files the container wrote
into the mounted volumes; `hash_file` models `fs.hash_file`. -/
structure TrainEnv where
  algo : Except Err Algo
  dataset : Except Err Dataset
  sample : String → Except Err DataSample
  spawnResult : Except Err (String × List String)
  hash_file : String → String

/-- Environment of `schedule_testtuple`: outcomes of the external calls for
both container stages, and the JSON parse result of the performance file
(a JSON object modelled as a key / numeric-value association list). -/
structure TestEnv where
  traintuple : Except Err FetchedTraintuple
  algo : Except Err Algo
  objective : Except Err Objective
  dataset : Except Err Dataset
  sample : String → Except Err DataSample
  spawn1 : Except Err (String × List String)
  spawn2 : Except Err (String × List String)
  perfParse : Except Err (List (String × Rat))
  hash_file : String → String

/-- Resolve every data sample key through the data access layer, left to
right, propagating the first failure (the list comprehension of
`_get_data_volume`). -/
def resolveSamples (f : String → Except Err DataSample) :
    List String → Except Err (List DataSample)
  | [] => Except.ok []
  | k :: ks =>
    match f k with
    | Except.error e => Except.error e
    | Except.ok d =>
      match resolveSamples f ks with
      | Except.error e => Except.error e
      | Except.ok ds => Except.ok (d :: ds)

/-- Copy every resolved sample tree into the data volume
(`shutil.copytree(sample.path, data_volume/sample.pkhash)`). -/
def copySamples (data_volume : String) (samples : List DataSample) (s : Ws) : Ws :=
  samples.foldl
    (fun acc sample =>
      { acc with
        fs := acc.fs.add (os_path_join data_volume sample.pkhash),
        events := acc.events ++ [Event.copytree sample.path (os_path_join data_volume sample.pkhash)] })
    s

/-- The `Worker._get_data_volume` helper: create `tuple_dir/data`, resolve the
tuple's data sample keys and copy each sample in; returns the data volume
path.  Emits a `materializeData` event recording the materialization. -/
def _get_data_volume (sampleF : String → Except Err DataSample) (tuple_dir : String)
    (dskeys : List String) (s : Ws) : Except Err (String × Ws) :=
  let md := _mkdir s.fs (os_path_join tuple_dir "data")
  let data_volume := md.2
  let s := { s with fs := md.1 }
  match resolveSamples sampleF dskeys with
  | Except.error e => Except.error e
  | Except.ok samples =>
    let s := copySamples data_volume samples s
    Except.ok (data_volume, { s with events := s.events ++ [Event.materializeData data_volume] })

/-- Hard-link creation (`os.link`); modelled as always succeeding. -/
def linkFile (src dst : String) (s : Ws) : Ws :=
  { s with fs := s.fs.add dst, events := s.events ++ [Event.link src dst] }

/-- The `Worker._save_output_model` helper: copy the produced model file from
the ephemeral models volume into the permanent per-tuple model directory and
return the resulting `OutModel` (content hash and permanent path).  The copy
fails when the container did not produce the file. -/
def _save_output_model (wdir : String) (hashF : String → String) (tuple_key model_name models_volume : String)
    (s : Ws) : Except Err (OutModel × Ws) :=
  let tmp_path := os_path_join models_volume model_name
  let md := _mkdir s.fs (os_path_join (os_path_join wdir "models") tuple_key)
  let model_dir := md.2
  let s := { s with fs := md.1 }
  let model_path := os_path_join model_dir model_name
  if s.fs.hasPath tmp_path then
    Except.ok
      ({ hash_ := hashF model_path, storage_address := model_path },
       { s with
         fs := s.fs.add model_path,
         events := s.events ++ [Event.copyFile tmp_path model_path] })
  else Except.error Err.fileNotFound

/-- Run one container (`spawner.spawn`): always records the spawn event; on
success the files written by the container appear in the filesystem and the
captured logs are returned. -/
def doSpawn (container_name image command : String) (volumes : List (String × VolSpec))
    (result : Except Err (String × List String)) (s : Ws) : Except Err String × Ws :=
  let s := { s with events := s.events ++ [Event.spawn container_name image command volumes] }
  match result with
  | Except.error e => (Except.error e, s)
  | Except.ok lf => (Except.ok lf.1, { s with fs := lf.2.foldl FS.add s.fs })

/-! ## Command construction -/

/-- The volume name an input model is hard-linked under:
ordinal position joined to the model key (`f"{idx}_{model.key}"`). -/
def model_link_name (idx : Nat) (m : InModel) : String :=
  Nat.repr idx ++ "_" ++ m.key

/-- The model-path arguments appended for a train / aggregate tuple with
input models: one ` {idx}_{model.key}` per input model, in list order. -/
def train_model_args (ms : List InModel) : String :=
  String.join (ms.enum.map (fun p => " " ++ model_link_name p.1 p.2))

/-- Hard-link the input models of a train / aggregate tuple into the models
volume, enumerating from `idx`. -/
def linkInputModelsFrom (models_volume : String) : Nat → List InModel → Ws → Ws
  | _, [], s => s
  | idx, m :: ms, s =>
    linkInputModelsFrom models_volume (idx + 1) ms
      (linkFile m.storage_address (os_path_join models_volume (model_link_name idx m)) s)

/-- Hard-link all input models (`for idx, model in enumerate(tuple_.in_models)`). -/
def linkInputModels (models_volume : String) (ms : List InModel) (s : Ws) : Ws :=
  linkInputModelsFrom models_volume 0 ms s

/-- The `_get_command_models_composite` helper with `is_train=True`: the head
/ trunk model keys are the fixed names `input_head_model` /
`input_trunk_model` when the corresponding input model is present. -/
def _get_command_models_composite_train (t : Traintuple) (models_volume : String)
    (container_volume : VolSpec) : String :=
  (if t.in_head_model.isSome then
      " --input-head-model-filename " ++
        _get_address_in_container "input_head_model" models_volume container_volume
    else "") ++
  (if t.in_trunk_model.isSome then
      " --input-trunk-model-filename " ++
        _get_address_in_container "input_trunk_model" models_volume container_volume
    else "")

/-- The `_get_command_models_composite` helper with `is_train=False`: the
keys are the stored head / trunk model hashes; an empty hash is falsy in
Python, so it produces no flag. -/
def _get_command_models_composite_test (head trunk : StoredModel) (models_volume : String)
    (container_volume : VolSpec) : String :=
  (if head.hash_ ≠ "" then
      " --input-head-model-filename " ++
        _get_address_in_container head.hash_ models_volume container_volume
    else "") ++
  (if trunk.hash_ ≠ "" then
      " --input-trunk-model-filename " ++
        _get_address_in_container trunk.hash_ models_volume container_volume
    else "")

/-- The command of `schedule_traintuple` before model-path arguments: the
base verb, the rank flag, and the fake-data flags for a non-aggregate tuple
on a non-local dataset. -/
def train_command_base (t : Traintuple) : String :=
  let c := if t.kind = TrainKind.aggregate then "aggregate" else "train"
  let c := c ++ " --rank " ++ toString t.rank
  if t.kind ≠ TrainKind.aggregate ∧ ¬ _is_local t.dataset.key then
    c ++ " --fake-data" ++ " --n-fake-samples " ++ Nat.repr t.dataset.keys.length
  else c

/-- Lookup of a key in a parsed JSON object (`dict.get`). -/
def jsonGet (obj : List (String × Rat)) (k : String) : Option Rat :=
  (obj.find? (fun kv => kv.1 = k)).map (fun kv => kv.2)

/-- Check of `tuple_.compute_plan_id` followed by
`db.get(schemas.Type.ComputePlan, ...)`, whose result the traintuple path
discards (it refetches before updating). -/
def planCheck (pid? : Option String) (plans : List (String × ComputePlan)) : Except Err Unit :=
  match pid? with
  | none => Except.ok ()
  | some pid =>
    match lookupPlan plans pid with
    | none => Except.error Err.notFound
    | some _ => Except.ok ()

/-- Mark a train-type tuple as doing (line 131). -/
def Traintuple.markDoing (t : Traintuple) : Traintuple :=
  { t with status := Status.doing }

/-- Mark a test tuple as doing (line 245). -/
def Testtuple.markDoing (t : Testtuple) : Testtuple :=
  { t with status := Status.doing }

/-- Increment `done_count` and set the plan status to done exactly when the
counter reaches `tuple_count` (the final block of both schedule calls). -/
def bumpPlan (cp : ComputePlan) : ComputePlan :=
  let cp := { cp with done_count := cp.done_count + 1 }
  if cp.done_count = cp.tuple_count then { cp with status := Status.done } else cp

/-! ## schedule_traintuple -/

/-- Input-model volume preparation of `schedule_traintuple` (lines 140-168):
returns the updated state, the volumes dict, and the
`input_models_volume` / `output_models_volume` / `models_volume` local
variables (absent when the corresponding branch did not run, mirroring
Python local-variable scope). -/
def prepare_input_models (tuple_dir : String) (t : Traintuple) (s : Ws) :
    Ws × List (String × VolSpec) × Option String × Option String × Option String :=
  if t.kind = TrainKind.composite then
    let md1 := _mkdir s.fs (os_path_join tuple_dir "input_models")
    let input_models_volume := md1.2
    let md2 := _mkdir md1.1 (os_path_join tuple_dir "output_models")
    let output_models_volume := md2.2
    let s := { s with fs := md2.1 }
    let s :=
      match t.in_head_model with
      | some m => linkFile m.storage_address (os_path_join input_models_volume "input_head_model") s
      | none => s
    let s :=
      match t.in_trunk_model with
      | some m => linkFile m.storage_address (os_path_join input_models_volume "input_trunk_model") s
      | none => s
    let volumes := dictSet (dictSet [] input_models_volume _VOLUME_INPUT_MODELS_RO)
      output_models_volume _VOLUME_OUTPUT_MODELS_RW
    (s, volumes, some input_models_volume, some output_models_volume, none)
  else
    match t.in_models with
    | some ms =>
      let md := _mkdir s.fs (os_path_join tuple_dir "models")
      let models_volume := md.2
      let s := { s with fs := md.1 }
      let s := linkInputModels models_volume ms s
      (s, dictSet [] models_volume _VOLUME_MODELS_RW, none, none, some models_volume)
    | none => (s, [], none, none, none)

/-- Final block of `schedule_traintuple` (lines 232-240): record the logs,
set the status to done, and, when the tuple belongs to a compute plan,
refetch the plan and bump its progress counter. -/
def trainFinalize (logs : String) (t : Traintuple) (s : St) :
    Except (Err × Traintuple × St) (Traintuple × St) :=
  let t := { t with log := logs }
  let t := { t with status := Status.done }
  match t.compute_plan_id with
  | none => Except.ok (t, s)
  | some pid =>
    match lookupPlan s.plans pid with
    | none => Except.error (Err.notFound, t, s)
    | some cp => Except.ok (t, { s with plans := setPlan s.plans pid (bumpPlan cp) })

/-- Data preparation of `schedule_traintuple` (lines 170-176): for a
non-aggregate tuple, download the dataset, mount its opener read-only and,
when the dataset is local, materialize the data-sample volume. -/
def prepareDataVolumesTrain (envDataset : Except Err Dataset)
    (sampleF : String → Except Err DataSample) (tuple_dir : String) (t : Traintuple)
    (volumes : List (String × VolSpec)) (s : Ws) :
    Except Err (List (String × VolSpec) × Ws) :=
  if t.kind ≠ TrainKind.aggregate then
    match envDataset with
    | Except.error e => Except.error e
    | Except.ok ds =>
      let volumes := dictSet volumes ds.opener_storage_address _VOLUME_OPENER
      if _is_local t.dataset.key then
        match _get_data_volume sampleF tuple_dir t.dataset.keys s with
        | Except.error e => Except.error e
        | Except.ok dvs => Except.ok (dictSet volumes dvs.1 _VOLUME_INPUT_DATASAMPLES, dvs.2)
      else Except.ok (volumes, s)
  else Except.ok (volumes, s)

/-- Shared compute-plan volume (lines 178-185 and 274-280): when the tuple
belongs to a plan, create the plan-scoped persistent local directory and
mount it read-write. -/
def planLocalVolume (wdir : String) (pid? : Option String)
    (volumes : List (String × VolSpec)) (s : Ws) : List (String × VolSpec) × Ws :=
  match pid? with
  | some pid =>
    let md := _mkdir s.fs (os_path_join (os_path_join (os_path_join wdir "compute_plans") "local") pid)
    (dictSet volumes md.2 _VOLUME_LOCAL, { s with fs := md.1 })
  | none => (volumes, s)

/-- Middle of `schedule_traintuple` (lines 140-230): volume preparation,
command construction, container execution and output-model persistence.
Touches the filesystem and trace but never the compute-plan store.  Errors
carry the tuple and state reached so far, since mutations made before the
error persist. -/
def trainPrep (wdir : String) (env : TrainEnv) (tuple_dir : String) (algo : Algo)
    (t : Traintuple) (s0 : Ws) :
    Except (Err × Traintuple × Ws) (String × Traintuple × Ws) :=
  let pim := prepare_input_models tuple_dir t s0
  let s := pim.1
  let volumes := pim.2.1
  let input_models_volume? := pim.2.2.1
  let output_models_volume? := pim.2.2.2.1
  let models_volume? := pim.2.2.2.2
  match prepareDataVolumesTrain env.dataset env.sample tuple_dir t volumes s with
  | Except.error e => Except.error (e, t, s)
  | Except.ok vs =>
  let volumes := vs.1
  let s := vs.2
  let lv := planLocalVolume wdir t.compute_plan_id volumes s
  let volumes := lv.1
  let s := lv.2
  let command := train_command_base t
  let command :=
    if t.kind = TrainKind.composite then
      match input_models_volume? with
      | some imv => command ++ _get_command_models_composite_train t imv _VOLUME_INPUT_MODELS_RO
      | none => command
    else
      match t.in_models with
      | some ms => command ++ train_model_args ms
      | none => command
  let container_name := "algo-" ++ algo.key
  let sp := doSpawn container_name algo.content_storage_address command volumes env.spawnResult s
  match sp.1 with
  | Except.error e => Except.error (e, t, sp.2)
  | Except.ok logs =>
  let s := sp.2
  if t.kind = TrainKind.composite then
    match output_models_volume? with
    | none => Except.error (Err.nameError, t, s)
    | some omv =>
      match _save_output_model wdir env.hash_file t.key "output_head_model" omv s with
      | Except.error e => Except.error (e, t, s)
      | Except.ok hs =>
        let t := { t with out_head_model := some hs.1 }
        match _save_output_model wdir env.hash_file t.key "output_trunk_model" omv hs.2 with
        | Except.error e => Except.error (e, t, hs.2)
        | Except.ok ts => Except.ok (logs, { t with out_trunk_model := some ts.1 }, ts.2)
  else
    match models_volume? with
    | none => Except.error (Err.nameError, t, s)
    | some mv =>
      match _save_output_model wdir env.hash_file t.key "model" mv s with
      | Except.error e => Except.error (e, t, s)
      | Except.ok ms => Except.ok (logs, { t with out_model := some ms.1 }, ms.2)

/-- Body of `schedule_traintuple` (the code inside the `_context` block,
lines 130-240): mark the tuple doing, resolve the algorithm and (when
referenced) the compute plan, run the preparation / execution / persistence
middle, then finalize status, logs and plan progress. -/
def trainBody (wdir : String) (env : TrainEnv) (tuple_dir : String) (t0 : Traintuple) (s0 : St) :
    Except (Err × Traintuple × St) (Traintuple × St) :=
  let t := t0.markDoing
  match env.algo with
  | Except.error e => Except.error (e, t, s0)
  | Except.ok algo =>
  match planCheck t.compute_plan_id s0.plans with
  | Except.error e => Except.error (e, t, s0)
  | Except.ok _ =>
  match trainPrep wdir env tuple_dir algo t s0.ws with
  | Except.error etw => Except.error (etw.1, etw.2.1, wsSt s0.plans etw.2.2)
  | Except.ok ltw => trainFinalize ltw.1 ltw.2.1 (wsSt s0.plans ltw.2.2)

/-- Result of a schedule call: the surfaced outcome, the tuple, and the
final state. -/
structure TrainRun where
  res : Except Err Unit
  tup : Traintuple
  st : St
deriving Repr

/-- The `Worker.schedule_traintuple` method: run the body inside the scoped
job directory `wdir/tuple_.key`; on every exit path the scoped directory is
removed (the `finally` of `_context`, `ignore_errors=True`) and the body's
outcome is surfaced to the caller. -/
def schedule_traintuple (wdir : String) (env : TrainEnv) (t : Traintuple) (s : St) : TrainRun :=
  let md := _mkdir s.fs (os_path_join wdir t.key)
  let tuple_dir := md.2
  let s0 := { s with fs := md.1 }
  match trainBody wdir env tuple_dir t s0 with
  | Except.ok ts =>
    { res := Except.ok (), tup := ts.1, st := { ts.2 with fs := ts.2.fs.rmtree tuple_dir } }
  | Except.error ets =>
    { res := Except.error ets.1, tup := ets.2.1,
      st := { ets.2.2 with fs := ets.2.2.fs.rmtree tuple_dir } }

/-! ## schedule_testtuple -/

/-- The predict-stage command of `schedule_testtuple` before model-path
arguments: `predict`, plus the fake-data flags when the dataset is not
local (the sample count is the length of
`objective.test_dataset.data_sample_keys`). -/
def predict_command_base (localData : Bool) (n_fake : Nat) : String :=
  let c := "predict"
  if ¬ localData then
    c ++ " --fake-data" ++ " --n-fake-samples " ++ Nat.repr n_fake
  else c

/-- The score-stage command of `schedule_testtuple`: the fake-labels mode
and sample count for a non-local dataset, the no-fake-labels mode for a
local one. -/
def score_command (localData : Bool) (n_fake : Nat) : String :=
  if localData then "--fake-data-mode " ++ METRICS_NO_FAKE_Y
  else "--fake-data-mode " ++ METRICS_FAKE_Y ++ " --n-fake-samples " ++ Nat.repr n_fake

/-- Data preparation of `schedule_testtuple` (lines 269-272): when the
downloaded dataset is local, materialize the data-sample volume and remember
its host path (the `data_volume` local variable). -/
def prepareDataVolumesTest (datasetKey : String) (sampleF : String → Except Err DataSample)
    (tuple_dir : String) (dskeys : List String) (volumes : List (String × VolSpec)) (s : Ws) :
    Except Err (List (String × VolSpec) × Ws × Option String) :=
  if _is_local datasetKey then
    match _get_data_volume sampleF tuple_dir dskeys s with
    | Except.error e => Except.error e
    | Except.ok dvs =>
      Except.ok (dictSet volumes dvs.1 _VOLUME_INPUT_DATASAMPLES, dvs.2, some dvs.1)
  else Except.ok (volumes, s, none)

/-- Model preparation of the predict stage (lines 289-316): hard-link the
referenced train tuple's stored model(s) into the models volume and append
the model-path arguments to the command. -/
def testModelsStep (ttype : TraintupleType) (traintuple : FetchedTraintuple)
    (models_volume command : String) (s : Ws) : Except Err (String × Ws) :=
  match ttype with
  | TraintupleType.traintuple | TraintupleType.aggregatetuple =>
    match traintuple.out_model with
    | none => Except.error Err.attributeError
    | some m =>
      let s := linkFile m.storage_address (os_path_join models_volume m.key) s
      Except.ok
        (command ++ " " ++ _get_address_in_container m.key models_volume _VOLUME_MODELS_RW, s)
  | TraintupleType.composite_traintuple =>
    match traintuple.out_head_model, traintuple.out_trunk_model with
    | some h, some tr =>
      let s := linkFile h.storage_address (os_path_join models_volume h.hash_) s
      let s := linkFile tr.storage_address (os_path_join models_volume tr.hash_) s
      Except.ok
        (command ++ _get_command_models_composite_test h tr models_volume _VOLUME_MODELS_RO, s)
    | _, _ => Except.error Err.attributeError

/-- Middle of `schedule_testtuple` (lines 260-351): volume preparation,
both container stages, performance-file persistence and parsing.  Touches
the filesystem and trace but never the compute-plan store or the tuple.
On success returns the predict logs, the score logs and the parsed
performance object. -/
def testPrep (wdir : String) (env : TestEnv) (tuple_dir : String)
    (traintuple : FetchedTraintuple) (algo : Algo) (objective : Objective) (dataset : Dataset)
    (t : Testtuple) (s0 : Ws) :
    Except (Err × Ws) ((String × String × List (String × Rat)) × Ws) :=
  let md1 := _mkdir s0.fs (os_path_join tuple_dir "pred")
  let predictions_volume := md1.2
  let md2 := _mkdir md1.1 (os_path_join tuple_dir "models")
  let models_volume := md2.2
  let s := { s0 with fs := md2.1 }
  let volumes := dictSet (dictSet (dictSet [] dataset.opener_storage_address _VOLUME_OPENER)
    models_volume _VOLUME_MODELS_RO) predictions_volume _VOLUME_OUTPUT_PRED
  match prepareDataVolumesTest dataset.key env.sample tuple_dir t.dataset.keys volumes s with
  | Except.error e => Except.error (e, s)
  | Except.ok vds =>
  let volumes := vds.1
  let s := vds.2.1
  let data_volume? := vds.2.2
  let lv := planLocalVolume wdir t.compute_plan_id volumes s
  let volumes := lv.1
  let s := lv.2
  let command := predict_command_base (_is_local dataset.key) objective.test_data_sample_keys.length
  match testModelsStep t.traintuple_type traintuple models_volume command s with
  | Except.error e => Except.error (e, s)
  | Except.ok cs =>
  let command := cs.1
  let s := cs.2
  let container_name := "algo-" ++ traintuple.algo_key
  let sp1 := doSpawn container_name algo.content_storage_address command volumes env.spawn1 s
  match sp1.1 with
  | Except.error e => Except.error (e, sp1.2)
  | Except.ok logs =>
  let s := sp1.2
  let volumes := dictSet (dictSet [] predictions_volume _VOLUME_OUTPUT_PRED)
    dataset.opener_storage_address _VOLUME_OPENER
  let vc :=
    if _is_local dataset.key then
      (match data_volume? with
       | some dv => dictSet volumes dv _VOLUME_INPUT_DATASAMPLES
       | none => volumes,
       score_command true objective.test_data_sample_keys.length)
    else (volumes, score_command false objective.test_data_sample_keys.length)
  let volumes := vc.1
  let command := vc.2
  let sp2 := doSpawn DOCKER_METRICS_TAG objective.metrics_storage_address command volumes env.spawn2 s
  match sp2.1 with
  | Except.error e => Except.error (e, sp2.2)
  | Except.ok logs_predict =>
  let s := sp2.2
  let tmp_path := os_path_join predictions_volume "perf.json"
  let mdp := _mkdir s.fs (os_path_join (os_path_join wdir "performances") t.key)
  let pred_dir := mdp.2
  let s := { s with fs := mdp.1 }
  let pred_path := os_path_join pred_dir "performance.json"
  if s.fs.hasPath tmp_path then
    let s := { s with fs := s.fs.add pred_path,
                      events := s.events ++ [Event.copyFile tmp_path pred_path] }
    match env.perfParse with
    | Except.error e => Except.error (e, s)
    | Except.ok obj => Except.ok ((logs, logs_predict, obj), s)
  else Except.error (Err.fileNotFound, s)

/-- Fetch of the compute plan referenced by a test tuple (lines 255-257);
unlike the traintuple path, the fetched plan object is kept and used by the
final block. -/
def planFetch (pid? : Option String) (plans : List (String × ComputePlan)) :
    Except Err (Option (String × ComputePlan)) :=
  match pid? with
  | none => Except.ok none
  | some pid =>
    match lookupPlan plans pid with
    | none => Except.error Err.notFound
    | some cp => Except.ok (some (pid, cp))

/-- Final block of `schedule_testtuple` (lines 350-362): set the parsed
performance, concatenate the two stage logs, set the status to done, and
bump the plan object fetched at the start of the call. -/
def testFinalize (compute_plan? : Option (String × ComputePlan)) (logs logs_predict : String)
    (obj : List (String × Rat)) (t : Testtuple) (s : St) : Testtuple × St :=
  let t := { t with dataset := { t.dataset with perf := jsonGet obj "all" } }
  let t := { t with log := logs ++ "\n\n" ++ logs_predict }
  let t := { t with status := Status.done }
  match compute_plan? with
  | none => (t, s)
  | some pcp => (t, { s with plans := setPlan s.plans pcp.1 (bumpPlan pcp.2) })

/-- Body of `schedule_testtuple` (the code inside the `_context` block,
lines 244-362): mark the tuple doing, resolve the referenced train tuple
and its assets and (when referenced) the compute plan, run the two-stage
middle, then set the performance, logs and status and bump the plan fetched
at the start. -/
def testBody (wdir : String) (env : TestEnv) (tuple_dir : String) (t0 : Testtuple) (s0 : St) :
    Except (Err × Testtuple × St) (Testtuple × St) :=
  let t := t0.markDoing
  match env.traintuple with
  | Except.error e => Except.error (e, t, s0)
  | Except.ok traintuple =>
  match env.algo with
  | Except.error e => Except.error (e, t, s0)
  | Except.ok algo =>
  match env.objective with
  | Except.error e => Except.error (e, t, s0)
  | Except.ok objective =>
  match env.dataset with
  | Except.error e => Except.error (e, t, s0)
  | Except.ok dataset =>
  match planFetch t.compute_plan_id s0.plans with
  | Except.error e => Except.error (e, t, s0)
  | Except.ok compute_plan? =>
  match testPrep wdir env tuple_dir traintuple algo objective dataset t s0.ws with
  | Except.error ew => Except.error (ew.1, t, wsSt s0.plans ew.2)
  | Except.ok rs =>
    Except.ok (testFinalize compute_plan? rs.1.1 rs.1.2.1 rs.1.2.2 t (wsSt s0.plans rs.2))

/-- Result of a `schedule_testtuple` call. -/
structure TestRun where
  res : Except Err Unit
  tup : Testtuple
  st : St
deriving Repr

/-- The `Worker.schedule_testtuple` method: run the body inside the scoped
job directory; the scoped directory is removed on every exit path and the
body's outcome is surfaced to the caller. -/
def schedule_testtuple (wdir : String) (env : TestEnv) (t : Testtuple) (s : St) : TestRun :=
  let md := _mkdir s.fs (os_path_join wdir t.key)
  let tuple_dir := md.2
  let s0 := { s with fs := md.1 }
  match testBody wdir env tuple_dir t s0 with
  | Except.ok ts =>
    { res := Except.ok (), tup := ts.1, st := { ts.2 with fs := ts.2.fs.rmtree tuple_dir } }
  | Except.error ets =>
    { res := Except.error ets.1, tup := ets.2.1,
      st := { ets.2.2 with fs := ets.2.2.fs.rmtree tuple_dir } }

/-! ## Trace observations and concrete fixtures -/

/-- Substring test on strings. -/
def strContains (s pat : String) : Bool :=
  decide (pat.data <:+: s.data)

/-- The commands of the container spawns in a trace, in order. -/
def spawnCommands (evs : List Event) : List String :=
  evs.filterMap (fun e =>
    match e with
    | Event.spawn _ _ c _ => some c
    | _ => none)

/-- The volume sets of the container spawns in a trace, in order. -/
def spawnVolumes (evs : List Event) : List (List (String × VolSpec)) :=
  evs.filterMap (fun e =>
    match e with
    | Event.spawn _ _ _ v => some v
    | _ => none)

/-- The source / destination pairs of the hard links in a trace, in order. -/
def linkPairs (evs : List Event) : List (String × String) :=
  evs.filterMap (fun e =>
    match e with
    | Event.link a b => some (a, b)
    | _ => none)

/-- The source / destination pairs of the file copies in a trace, in order. -/
def copyPairs (evs : List Event) : List (String × String) :=
  evs.filterMap (fun e =>
    match e with
    | Event.copyFile a b => some (a, b)
    | _ => none)

/-- How many times a data-sample volume was materialized in a trace. -/
def countMaterialize (evs : List Event) : Nat :=
  (evs.filter (fun e =>
    match e with
    | Event.materializeData _ => true
    | _ => false)).length

/-- Worker workspace root used by the concrete runs. -/
def exWdir : String := "/cwd/local-worker"

/-- Empty initial state. -/
def emptySt : St := { fs := ⟨[]⟩, plans := [], events := [] }

/-- Initial state holding one compute plan `cp` with one expected tuple. -/
def planSt : St :=
  { fs := ⟨[]⟩,
    plans := [ ("cp", { done_count := 0, tuple_count := 1, status := Status.waiting }) ],
    events := [] }

/-- A concrete algorithm asset. -/
def exAlgo : Algo := { key := "alg", content_storage_address := "/store/algo.zip" }

/-- A concrete local dataset asset. -/
def exDatasetLocal : Dataset := { key := "local_ds", opener_storage_address := "/store/opener.py" }

/-- A concrete remote dataset asset. -/
def exDatasetRemote : Dataset := { key := "remote_ds", opener_storage_address := "/store/opener.py" }

/-- A concrete sample resolver. -/
def exSample (k : String) : Except Err DataSample :=
  Except.ok { path := "/store/samples/" ++ k, pkhash := "h_" ++ k }

/-- A concrete CompositeTrain tuple: rank 0, no input models, local dataset
with one sample (the literal scenario of the spec). -/
def exCompositeTuple : Traintuple :=
  { key := "tk1", kind := TrainKind.composite, rank := 0, compute_plan_id := none,
    algo_key := "alg", dataset := { key := "local_ds", keys := [ "s1" ] } }

/-- The same tuple attached to compute plan `cp` under key `tk2`. -/
def exCompositeTuplePlan : Traintuple :=
  { key := "tk2", kind := TrainKind.composite, rank := 0, compute_plan_id := some "cp",
    algo_key := "alg", dataset := { key := "local_ds", keys := [ "s1" ] } }

/-- A successful environment for a composite train run under tuple key `k`:
the container writes both output model files. -/
def exTrainEnv (k : String) : TrainEnv :=
  { algo := Except.ok exAlgo,
    dataset := Except.ok exDatasetLocal,
    sample := exSample,
    spawnResult := Except.ok
      ("LOGS",
       [ os_path_join (os_path_join (os_path_join exWdir k) "output_models") "output_head_model",
         os_path_join (os_path_join (os_path_join exWdir k) "output_models") "output_trunk_model" ]),
    hash_file := fun p => "hash:" ++ p }

/-- An environment whose algorithm download fails. -/
def exTrainEnvFail : TrainEnv :=
  { algo := Except.error Err.downloadError,
    dataset := Except.ok exDatasetLocal,
    sample := exSample,
    spawnResult := Except.ok ("LOGS", []),
    hash_file := fun p => "hash:" ++ p }

/-- A concrete test tuple on the local dataset. -/
def exTestTupleLocal : Testtuple :=
  { key := "test1", compute_plan_id := none, traintuple_type := TraintupleType.traintuple,
    traintuple_key := "tk1", objective_key := "obj",
    dataset := { key := "local_ds", keys := [ "s1" ] } }

/-- A concrete test tuple on the remote dataset. -/
def exTestTupleRemote : Testtuple :=
  { key := "test2", compute_plan_id := none, traintuple_type := TraintupleType.traintuple,
    traintuple_key := "tk1", objective_key := "obj",
    dataset := { key := "remote_ds", keys := [ "s1" ] } }

/-- The stored output model of the referenced train tuple. -/
def exStoredModel : StoredModel := { key := "mk", hash_ := "mh", storage_address := "/store/m" }

/-- A successful test environment for tuple key `k` on dataset `ds` with the
given parsed performance object; the score container writes `perf.json`. -/
def exTestEnv (k : String) (ds : Dataset) (nkeys : List String)
    (perf : List (String × Rat)) : TestEnv :=
  { traintuple := Except.ok { algo_key := "alg", out_model := some exStoredModel },
    algo := Except.ok exAlgo,
    objective := Except.ok
      { key := "obj", test_data_sample_keys := nkeys,
        metrics_storage_address := "/store/metrics.zip" },
    dataset := Except.ok ds,
    sample := exSample,
    spawn1 := Except.ok ("L1", []),
    spawn2 := Except.ok
      ("L2", [ os_path_join (os_path_join (os_path_join exWdir k) "pred") "perf.json" ]),
    perfParse := Except.ok perf,
    hash_file := fun p => "hash:" ++ p }

/-- A test environment whose referenced train tuple cannot be resolved. -/
def exTestEnvFail : TestEnv :=
  { traintuple := Except.error Err.notFound,
    algo := Except.ok exAlgo,
    objective := Except.ok
      { key := "obj", test_data_sample_keys := [ "a" ],
        metrics_storage_address := "/store/metrics.zip" },
    dataset := Except.ok exDatasetLocal,
    sample := exSample,
    spawn1 := Except.ok ("L1", []),
    spawn2 := Except.ok ("L2", []),
    perfParse := Except.ok [],
    hash_file := fun p => "hash:" ++ p }

/-- Serialized successful schedule completions referencing compute plan
`pid`: `CompletesPlan wdir pid s k s'` holds when `k` successful
`schedule_traintuple` / `schedule_testtuple` calls, each on a tuple whose
`compute_plan_id` is `pid`, lead from state `s` to state `s'`. -/
inductive CompletesPlan (wdir pid : String) : St → Nat → St → Prop where
  | nil (s : St) : CompletesPlan wdir pid s 0 s
  | train (env : TrainEnv) (t : Traintuple) (s s' : St) (k : Nat) :
      t.compute_plan_id = some pid →
      (schedule_traintuple wdir env t s).res = Except.ok () →
      CompletesPlan wdir pid (schedule_traintuple wdir env t s).st k s' →
      CompletesPlan wdir pid s (k + 1) s'
  | test (env : TestEnv) (t : Testtuple) (s s' : St) (k : Nat) :
      t.compute_plan_id = some pid →
      (schedule_testtuple wdir env t s).res = Except.ok () →
      CompletesPlan wdir pid (schedule_testtuple wdir env t s).st k s' →
      CompletesPlan wdir pid s (k + 1) s'

/-- The volumes dictionary of the predict stage of `schedule_testtuple`
(lines 260-283): opener, models (read-only), predictions output, then the
data-sample volume for a local dataset, then the plan-local volume when the
tuple belongs to a compute plan. -/
def test_stage1_volumes (wdir tuple_dir : String) (ds : Dataset) (pid? : Option String) :
    List (String × VolSpec) :=
  let volumes := dictSet (dictSet (dictSet [] ds.opener_storage_address _VOLUME_OPENER)
    (os_path_join tuple_dir "models") _VOLUME_MODELS_RO)
    (os_path_join tuple_dir "pred") _VOLUME_OUTPUT_PRED
  let volumes :=
    if _is_local ds.key then
      dictSet volumes (os_path_join tuple_dir "data") _VOLUME_INPUT_DATASAMPLES
    else volumes
  match pid? with
  | some pid =>
    dictSet volumes
      (os_path_join (os_path_join (os_path_join wdir "compute_plans") "local") pid) _VOLUME_LOCAL
  | none => volumes

/-- The volumes dictionary of the score stage of `schedule_testtuple`
(lines 323-330): predictions output and opener, plus the predict stage's
`data_volume` when the dataset is local. -/
def test_stage2_volumes (tuple_dir : String) (ds : Dataset) : List (String × VolSpec) :=
  let volumes := dictSet (dictSet [] (os_path_join tuple_dir "pred") _VOLUME_OUTPUT_PRED)
    ds.opener_storage_address _VOLUME_OPENER
  if _is_local ds.key then
    dictSet volumes (os_path_join tuple_dir "data") _VOLUME_INPUT_DATASAMPLES
  else volumes

/-- A first concrete input model. -/
def exInModelA : InModel := { key := "ma", storage_address := "/store/ma" }

/-- A second concrete input model. -/
def exInModelB : InModel := { key := "mb", storage_address := "/store/mb" }

/-- A concrete plain train tuple with two input models on the local dataset. -/
def exTrainTupleModels : Traintuple :=
  { key := "tm1", kind := TrainKind.traintuple, rank := 1, compute_plan_id := none,
    algo_key := "alg", dataset := { key := "local_ds", keys := [ "s1" ] },
    in_models := some [ exInModelA, exInModelB ] }

/-- A successful environment for a plain train run under tuple key `k`: the
container writes the single output model file `model`. -/
def exTrainEnvModels (k : String) : TrainEnv :=
  { algo := Except.ok exAlgo,
    dataset := Except.ok exDatasetLocal,
    sample := exSample,
    spawnResult := Except.ok
      ("LOGS", [ os_path_join (os_path_join (os_path_join exWdir k) "models") "model" ]),
    hash_file := fun p => "hash:" ++ p }

/-! ## Basic filesystem lemmas -/

theorem pathUnder_self (p : String) : pathUnder p p = true := by
  simp [pathUnder]

theorem FS.hasPath_rmtree_under (fs : FS) (p q : String) (h : pathUnder p q = true) :
    (fs.rmtree p).hasPath q = false := by
  simp only [FS.hasPath, FS.rmtree, List.contains_eq_any_beq, List.any_eq_false]
  intro x hx
  rcases List.mem_filter.mp hx with ⟨-, hkeep⟩
  intro hbeq
  rw [show q = x from eq_of_beq hbeq] at h
  rw [h] at hkeep
  simp at hkeep

theorem mkdir_path (fs : FS) (p : String) (b : Bool) : (_mkdir fs p b).2 = p := by
  unfold _mkdir
  split
  · split <;> rfl
  · rfl

theorem mkdir_fst_false (fs : FS) (p : String) :
    (_mkdir fs p false).1 = if fs.hasPath p then fs else fs.add p := by
  unfold _mkdir
  split <;> simp

theorem hasPath_add_self (fs : FS) (p : String) : (fs.add p).hasPath p = true := by
  unfold FS.add
  split
  · assumption
  · simp [FS.hasPath]

/-! ## C9: idempotence of the `_mkdir` helper -/

/-- C9: `_mkdir` with `delete_if_exists=false` is idempotent: when the
directory exists the call returns that same path with the filesystem (hence
any contents below the path, created before or between calls) untouched;
consequently calling it twice in a row equals calling it once.  With
`delete_if_exists=true` an existing directory is deleted (everything under
the path removed) and recreated. -/
theorem mkdir_idempotent (fs : FS) (p : String) :
    (fs.hasPath p = true → _mkdir fs p false = (fs, p)) ∧
    (_mkdir (_mkdir fs p false).1 (_mkdir fs p false).2 false = _mkdir fs p false) ∧
    (fs.hasPath p = true →
      _mkdir fs p true = ((fs.rmtree p).add p, p) ∧
      (∀ q, pathUnder p q = true → q ≠ p → ((fs.rmtree p).add p).hasPath q = false)) := by
  refine ⟨?_, ?_, ?_⟩
  · intro h
    simp [_mkdir, h]
  · by_cases h : fs.hasPath p = true
    · simp [_mkdir, h]
    · simp only [_mkdir, h]
      simp only [Bool.false_eq_true, if_false, if_neg h]
      simp [hasPath_add_self]
  · intro h
    constructor
    · simp [_mkdir, h]
    · intro q hq hne
      have hrm : (fs.rmtree p).hasPath q = false := FS.hasPath_rmtree_under fs p q hq
      unfold FS.add
      split
      · exact hrm
      · simp only [FS.hasPath, List.contains_eq_any_beq, List.any_cons]
        have h1 : (q == p) = false := by
          simp [hne]
        rw [h1]
        simp only [FS.hasPath, List.contains_eq_any_beq, List.any_eq_false] at hrm ⊢
        simpa using hrm

/-- Witness for C9 at a concrete filesystem holding a directory `a` with a
file `a/x` below it. -/
theorem mkdir_idempotent_witness :
    _mkdir ⟨[ "a", "a/x" ]⟩ "a" false = (⟨[ "a", "a/x" ]⟩, "a") ∧
    _mkdir ⟨[ "a", "a/x" ]⟩ "a" true = (((⟨[ "a", "a/x" ]⟩ : FS).rmtree "a").add "a", "a") :=
  ⟨(mkdir_idempotent ⟨[ "a", "a/x" ]⟩ "a").1 (by decide),
   ((mkdir_idempotent ⟨[ "a", "a/x" ]⟩ "a").2.2 (by decide)).1⟩

/-! ## Scratch-directory release -/

theorem train_run_dir_gone (wdir : String) (env : TrainEnv) (t : Traintuple) (s : St) :
    (schedule_traintuple wdir env t s).st.fs.hasPath (os_path_join wdir t.key) = false := by
  unfold schedule_traintuple
  dsimp only
  split <;>
  · rw [mkdir_path]
    exact FS.hasPath_rmtree_under _ _ _ (pathUnder_self _)

theorem test_run_dir_gone (wdir : String) (env : TestEnv) (t : Testtuple) (s : St) :
    (schedule_testtuple wdir env t s).st.fs.hasPath (os_path_join wdir t.key) = false := by
  unfold schedule_testtuple
  dsimp only
  split <;>
  · rw [mkdir_path]
    exact FS.hasPath_rmtree_under _ _ _ (pathUnder_self _)

/-- C3: for every `schedule_traintuple` or `schedule_testtuple` call, on
every exit path (success or failure, i.e. any environment outcome), the
per-tuple scratch directory `wdir/key` does not exist in the final
filesystem; the deletion is the total (best-effort, absence-ignoring)
`rmtree` of the scoped context. -/
theorem schedule_scratch_dir_released (wdir : String) (env : TrainEnv) (t : Traintuple)
    (envT : TestEnv) (tt : Testtuple) (s s2 : St) :
    (schedule_traintuple wdir env t s).st.fs.hasPath (os_path_join wdir t.key) = false ∧
    (schedule_testtuple wdir envT tt s2).st.fs.hasPath (os_path_join wdir tt.key) = false :=
  ⟨train_run_dir_gone wdir env t s, test_run_dir_gone wdir envT tt s2⟩

/-! ## Component lemmas for the schedule bodies -/

theorem copySamples_cons (dv : String) (a : DataSample) (l : List DataSample) (s : Ws) :
    copySamples dv (a :: l) s =
      copySamples dv l
        { s with
          fs := s.fs.add (os_path_join dv a.pkhash),
          events := s.events ++ [Event.copytree a.path (os_path_join dv a.pkhash)] } := rfl

theorem copySamples_events (l : List DataSample) (dv : String) (s : Ws) :
    (copySamples dv l s).events =
      s.events ++ l.map (fun x => Event.copytree x.path (os_path_join dv x.pkhash)) := by
  induction l generalizing s with
  | nil => simp [copySamples]
  | cons a l ih => rw [copySamples_cons, ih]; simp

theorem linkInputModelsFrom_events (l : List InModel) (mv : String) (i : Nat) (s : Ws) :
    (linkInputModelsFrom mv i l s).events =
      s.events ++ (l.enumFrom i).map
        (fun p => Event.link p.2.storage_address (os_path_join mv (model_link_name p.1 p.2))) := by
  induction l generalizing i s with
  | nil => simp [linkInputModelsFrom]
  | cons a l ih => rw [linkInputModelsFrom, ih]; simp [linkFile, List.enumFrom]

theorem gdv_ok_dv (f : String → Except Err DataSample) (d : String) (ks : List String)
    (s : Ws) (dv : String) (s' : Ws)
    (h : _get_data_volume f d ks s = Except.ok (dv, s')) : dv = os_path_join d "data" := by
  unfold _get_data_volume at h
  dsimp only at h
  rw [mkdir_path] at h
  split at h
  · exact absurd h (by simp)
  · injection h with h'
    injection h' with h1 h2
    exact h1.symm

theorem gdv_ok_events (f : String → Except Err DataSample) (d : String) (ks : List String)
    (s : Ws) (dv : String) (s' : Ws)
    (h : _get_data_volume f d ks s = Except.ok (dv, s')) :
    ∃ samples, resolveSamples f ks = Except.ok samples ∧
      s'.events = s.events ++
        samples.map (fun x => Event.copytree x.path (os_path_join dv x.pkhash)) ++
        [Event.materializeData dv] := by
  unfold _get_data_volume at h
  dsimp only at h
  rw [mkdir_path] at h
  split at h
  · exact absurd h (by simp)
  · next samples heq =>
    injection h with h'
    injection h' with h1 h2
    refine ⟨samples, heq, ?_⟩
    rw [← h2, ← h1]
    simp [copySamples_events]

theorem save_ok (wdir : String) (hf : String → String) (k n mv : String) (s : Ws)
    (om : OutModel) (s' : Ws)
    (h : _save_output_model wdir hf k n mv s = Except.ok (om, s')) :
    om = { hash_ := hf (os_path_join (os_path_join (os_path_join wdir "models") k) n),
           storage_address := os_path_join (os_path_join (os_path_join wdir "models") k) n } ∧
    s'.events = s.events ++
      [Event.copyFile (os_path_join mv n)
        (os_path_join (os_path_join (os_path_join wdir "models") k) n)] := by
  unfold _save_output_model at h
  dsimp only at h
  rw [mkdir_path] at h
  split at h
  · injection h with h'
    injection h' with h1 h2
    rw [← h1, ← h2]
    exact ⟨rfl, rfl⟩
  · exact absurd h (by simp)

theorem doSpawn_snd_events (n i c : String) (v : List (String × VolSpec))
    (r : Except Err (String × List String)) (s : Ws) :
    (doSpawn n i c v r s).2.events = s.events ++ [Event.spawn n i c v] := by
  unfold doSpawn
  dsimp only
  split <;> rfl

theorem doSpawn_ok (n i c : String) (v : List (String × VolSpec))
    (r : Except Err (String × List String)) (s : Ws) (logs : String)
    (h : (doSpawn n i c v r s).1 = Except.ok logs) :
    ∃ files, r = Except.ok (logs, files) := by
  unfold doSpawn at h
  dsimp only at h
  cases r with
  | error e => simp at h
  | ok lf =>
    dsimp only at h
    injection h with h'
    exact ⟨lf.2, by rw [← h']⟩

theorem trainFinalize_error {logs : String} {t : Traintuple} {s : St} {est : Err × Traintuple × St}
    (h : trainFinalize logs t s = Except.error est) :
    est.2.2 = s ∧ ∃ pid, t.compute_plan_id = some pid ∧ lookupPlan s.plans pid = none := by
  unfold trainFinalize at h
  dsimp only at h
  split at h
  · exact absurd h (by simp)
  · rename_i pid hpid
    split at h
    · rename_i hlk
      injection h with h2
      rw [← h2]
      exact ⟨rfl, pid, hpid, hlk⟩
    · exact absurd h (by simp)

theorem trainFinalize_ok {logs : String} {t : Traintuple} {s : St} {ts : Traintuple × St}
    (h : trainFinalize logs t s = Except.ok ts) :
    ts.1 = { t with log := logs, status := Status.done } ∧
    ((t.compute_plan_id = none ∧ ts.2 = s) ∨
      (∃ pid cp, t.compute_plan_id = some pid ∧ lookupPlan s.plans pid = some cp ∧
        ts.2 = { s with plans := setPlan s.plans pid (bumpPlan cp) })) := by
  unfold trainFinalize at h
  dsimp only at h
  split at h
  · rename_i hnone
    injection h with h'
    rw [← h']
    exact ⟨rfl, Or.inl ⟨hnone, rfl⟩⟩
  · rename_i pid hpid
    split at h
    · exact absurd h (by simp)
    · rename_i cp hcp
      injection h with h'
      rw [← h']
      exact ⟨rfl, Or.inr ⟨pid, cp, hpid, hcp, rfl⟩⟩

/-- On every outcome, `trainPrep` leaves the status and plan reference of
the tuple unchanged (it only fills output-model slots). -/
theorem trainPrep_fields (wdir : String) (env : TrainEnv) (d : String) (algo : Algo)
    (t : Traintuple) (s0 : Ws) (r : Except (Err × Traintuple × Ws) (String × Traintuple × Ws))
    (h : trainPrep wdir env d algo t s0 = r) :
    (match r with
     | Except.error est => est.2.1.status = t.status ∧ est.2.1.compute_plan_id = t.compute_plan_id
     | Except.ok lts => lts.2.1.status = t.status ∧ lts.2.1.compute_plan_id = t.compute_plan_id) := by
  unfold trainPrep at h
  dsimp only at h
  repeat' split at h
  all_goals subst h
  all_goals exact ⟨rfl, rfl⟩

theorem planCheck_ok {pid? : Option String} {plans : List (String × ComputePlan)} {u : Unit}
    (h : planCheck pid? plans = Except.ok u) {pid : String} (hp : pid? = some pid) :
    ∃ cp, lookupPlan plans pid = some cp := by
  subst hp
  unfold planCheck at h
  dsimp only at h
  split at h
  · exact absurd h (by simp)
  · rename_i cp hcp
    exact ⟨cp, hcp⟩

/-- Status of the tuple after `trainBody`: doing on error (the code never
sets Failed), done on success. -/
theorem trainBody_status (wdir : String) (env : TrainEnv) (d : String) (t0 : Traintuple)
    (s0 : St) (r : Except (Err × Traintuple × St) (Traintuple × St))
    (h : trainBody wdir env d t0 s0 = r) :
    (match r with
     | Except.error est => est.2.1.status = Status.doing
     | Except.ok ts => ts.1.status = Status.done) := by
  unfold trainBody at h
  dsimp only at h
  split at h
  · subst h; rfl
  · split at h
    · subst h; rfl
    · rename_i u hpc
      split at h
      · rename_i etw hprep
        subst h
        exact (trainPrep_fields _ _ _ _ _ _ _ hprep).1
      · rename_i ltw hprep
        cases r with
        | error est =>
          exfalso
          obtain ⟨-, pid, hpid, hlk⟩ := trainFinalize_error h
          have hcpid : ltw.2.1.compute_plan_id = t0.compute_plan_id :=
            (trainPrep_fields _ _ _ _ _ _ _ hprep).2
          obtain ⟨cp, hcp⟩ := planCheck_ok hpc (hcpid ▸ hpid)
          rw [show (wsSt s0.plans ltw.2.2).plans = s0.plans from rfl] at hlk
          rw [hlk] at hcp
          exact Option.noConfusion hcp
        | ok ts =>
          dsimp only
          rw [(trainFinalize_ok h).1]

/-- Compute-plan store after `trainBody`: unchanged on error; on success
unchanged for a plan-less tuple, and exactly one bump of the referenced
plan otherwise. -/
theorem trainBody_plans (wdir : String) (env : TrainEnv) (d : String) (t0 : Traintuple)
    (s0 : St) (r : Except (Err × Traintuple × St) (Traintuple × St))
    (h : trainBody wdir env d t0 s0 = r) :
    (match r with
     | Except.error est => est.2.2.plans = s0.plans
     | Except.ok ts =>
       (t0.compute_plan_id = none ∧ ts.2.plans = s0.plans) ∨
       (∃ pid cp, t0.compute_plan_id = some pid ∧ lookupPlan s0.plans pid = some cp ∧
         ts.2.plans = setPlan s0.plans pid (bumpPlan cp))) := by
  unfold trainBody at h
  dsimp only at h
  split at h
  · subst h; rfl
  · split at h
    · subst h; rfl
    · rename_i u hpc
      split at h
      · rename_i etw hprep
        subst h
        rfl
      · rename_i ltw hprep
        have hcpid : ltw.2.1.compute_plan_id = t0.compute_plan_id :=
          (trainPrep_fields _ _ _ _ _ _ _ hprep).2
        cases r with
        | error est =>
          dsimp only
          obtain ⟨hs, -⟩ := trainFinalize_error h
          rw [hs]
          rfl
        | ok ts =>
          dsimp only
          obtain ⟨-, hcase⟩ := trainFinalize_ok h
          cases hcase with
          | inl hc =>
            exact Or.inl ⟨hcpid ▸ hc.1, by rw [hc.2]; rfl⟩
          | inr hc =>
            obtain ⟨pid, cp, hpid, hcp, hs2⟩ := hc
            refine Or.inr ⟨pid, cp, hcpid ▸ hpid, hcp, ?_⟩
            rw [hs2]
            rfl

set_option maxHeartbeats 4000000 in
@[simp] theorem markDoing_test_cpid (t : Testtuple) :
    t.markDoing.compute_plan_id = t.compute_plan_id := rfl

theorem planFetch_ok {pid? : Option String} {plans : List (String × ComputePlan)}
    {cp? : Option (String × ComputePlan)} (h : planFetch pid? plans = Except.ok cp?) :
    (pid? = none ∧ cp? = none) ∨
    (∃ pid cp, pid? = some pid ∧ lookupPlan plans pid = some cp ∧ cp? = some (pid, cp)) := by
  unfold planFetch at h
  cases pid? with
  | none =>
    dsimp only at h
    injection h with h2
    exact Or.inl ⟨rfl, h2.symm⟩
  | some pid =>
    dsimp only at h
    cases hcp : lookupPlan plans pid with
    | none => rw [hcp] at h; exact absurd h (by simp)
    | some cp =>
      rw [hcp] at h
      dsimp only at h
      injection h with h2
      exact Or.inr ⟨pid, cp, rfl, hcp, h2.symm⟩

theorem testFinalize_status (cp? : Option (String × ComputePlan)) (l lp : String)
    (obj : List (String × Rat)) (t : Testtuple) (s : St) :
    (testFinalize cp? l lp obj t s).1.status = Status.done := by
  unfold testFinalize
  cases cp? <;> rfl

theorem testFinalize_plans (cp? : Option (String × ComputePlan)) (l lp : String)
    (obj : List (String × Rat)) (t : Testtuple) (s : St) :
    (cp? = none → (testFinalize cp? l lp obj t s).2.plans = s.plans) ∧
    (∀ pid cp, cp? = some (pid, cp) →
      (testFinalize cp? l lp obj t s).2.plans = setPlan s.plans pid (bumpPlan cp)) := by
  constructor
  · intro hn
    subst hn
    rfl
  · intro pid cp hs
    subst hs
    rfl

/-- Status of the tuple after `testBody`: doing on error (the code never
sets Failed), done on success. -/
theorem testBody_status (wdir : String) (env : TestEnv) (d : String) (t0 : Testtuple)
    (s0 : St) (r : Except (Err × Testtuple × St) (Testtuple × St))
    (h : testBody wdir env d t0 s0 = r) :
    (match r with
     | Except.error est => est.2.1.status = Status.doing
     | Except.ok ts => ts.1.status = Status.done) := by
  unfold testBody at h
  dsimp only at h
  repeat' split at h
  all_goals subst h
  all_goals try rfl
  all_goals exact testFinalize_status _ _ _ _ _ _

/-- Compute-plan store after `testBody`: unchanged on error; on success
unchanged for a plan-less tuple, and exactly one bump of the referenced
plan otherwise. -/
theorem testBody_plans (wdir : String) (env : TestEnv) (d : String) (t0 : Testtuple)
    (s0 : St) (r : Except (Err × Testtuple × St) (Testtuple × St))
    (h : testBody wdir env d t0 s0 = r) :
    (match r with
     | Except.error est => est.2.2.plans = s0.plans
     | Except.ok ts =>
       (t0.compute_plan_id = none ∧ ts.2.plans = s0.plans) ∨
       (∃ pid cp, t0.compute_plan_id = some pid ∧ lookupPlan s0.plans pid = some cp ∧
         ts.2.plans = setPlan s0.plans pid (bumpPlan cp))) := by
  unfold testBody at h
  dsimp only at h
  repeat' split at h
  all_goals subst h
  all_goals try rfl
  all_goals rename_i x1 compute_plan hpf x2 rsv hprep
  all_goals dsimp only
  all_goals rw [markDoing_test_cpid] at hpf
  all_goals cases planFetch_ok hpf with
  | inl hc =>
    refine Or.inl ⟨hc.1, ?_⟩
    rw [hc.2]
    exact (testFinalize_plans _ _ _ _ _ _).1 rfl
  | inr hc =>
    obtain ⟨pid, cp, hpid, hcp, hcpo⟩ := hc
    refine Or.inr ⟨pid, cp, hpid, hcp, ?_⟩
    rw [hcpo]
    exact (testFinalize_plans _ _ _ _ _ _).2 pid cp rfl

/-! ## Schedule-level lemmas -/

theorem train_run_status (wdir : String) (env : TrainEnv) (t : Traintuple) (s : St) :
    (∀ e, (schedule_traintuple wdir env t s).res = Except.error e →
      (schedule_traintuple wdir env t s).tup.status = Status.doing) ∧
    ((schedule_traintuple wdir env t s).res = Except.ok () →
      (schedule_traintuple wdir env t s).tup.status = Status.done) := by
  unfold schedule_traintuple
  dsimp only
  split
  · rename_i ts heq
    constructor
    · intro e he
      exact absurd he (by simp)
    · intro h1
      exact trainBody_status _ _ _ _ _ _ heq
  · rename_i ets heq
    constructor
    · intro e he
      exact trainBody_status _ _ _ _ _ _ heq
    · intro h1
      exact absurd h1 (by simp)

theorem test_run_status (wdir : String) (env : TestEnv) (t : Testtuple) (s : St) :
    (∀ e, (schedule_testtuple wdir env t s).res = Except.error e →
      (schedule_testtuple wdir env t s).tup.status = Status.doing) ∧
    ((schedule_testtuple wdir env t s).res = Except.ok () →
      (schedule_testtuple wdir env t s).tup.status = Status.done) := by
  unfold schedule_testtuple
  dsimp only
  split
  · rename_i ts heq
    constructor
    · intro e he
      exact absurd he (by simp)
    · intro h1
      exact testBody_status _ _ _ _ _ _ heq
  · rename_i ets heq
    constructor
    · intro e he
      exact testBody_status _ _ _ _ _ _ heq
    · intro h1
      exact absurd h1 (by simp)

theorem train_run_plans_error (wdir : String) (env : TrainEnv) (t : Traintuple) (s : St)
    (e : Err) (he : (schedule_traintuple wdir env t s).res = Except.error e) :
    (schedule_traintuple wdir env t s).st.plans = s.plans := by
  unfold schedule_traintuple at he ⊢
  dsimp only at he ⊢
  split at he
  · exact absurd he (by simp)
  · rename_i ets heq
    exact trainBody_plans _ _ _ _ _ _ heq

theorem test_run_plans_error (wdir : String) (env : TestEnv) (t : Testtuple) (s : St)
    (e : Err) (he : (schedule_testtuple wdir env t s).res = Except.error e) :
    (schedule_testtuple wdir env t s).st.plans = s.plans := by
  unfold schedule_testtuple at he ⊢
  dsimp only at he ⊢
  split at he
  · exact absurd he (by simp)
  · rename_i ets heq
    exact testBody_plans _ _ _ _ _ _ heq

theorem train_run_plans_ok (wdir : String) (env : TrainEnv) (t : Traintuple) (s : St)
    (pid : String) (hpid : t.compute_plan_id = some pid)
    (hok : (schedule_traintuple wdir env t s).res = Except.ok ()) :
    ∃ cp, lookupPlan s.plans pid = some cp ∧
      (schedule_traintuple wdir env t s).st.plans = setPlan s.plans pid (bumpPlan cp) := by
  unfold schedule_traintuple at hok ⊢
  dsimp only at hok ⊢
  split at hok
  · rename_i ts heq
    have hp := trainBody_plans _ _ _ _ _ _ heq
    dsimp only at hp
    cases hp with
    | inl hc => rw [hpid] at hc; exact absurd hc.1 (by simp)
    | inr hc =>
      obtain ⟨pid2, cp, hpid2, hcp, hplans⟩ := hc
      rw [hpid] at hpid2
      injection hpid2 with hpe
      subst hpe
      exact ⟨cp, hcp, hplans⟩
  · exact absurd hok (by simp)

theorem test_run_plans_ok (wdir : String) (env : TestEnv) (t : Testtuple) (s : St)
    (pid : String) (hpid : t.compute_plan_id = some pid)
    (hok : (schedule_testtuple wdir env t s).res = Except.ok ()) :
    ∃ cp, lookupPlan s.plans pid = some cp ∧
      (schedule_testtuple wdir env t s).st.plans = setPlan s.plans pid (bumpPlan cp) := by
  unfold schedule_testtuple at hok ⊢
  dsimp only at hok ⊢
  split at hok
  · rename_i ts heq
    have hp := testBody_plans _ _ _ _ _ _ heq
    dsimp only at hp
    cases hp with
    | inl hc => rw [hpid] at hc; exact absurd hc.1 (by simp)
    | inr hc =>
      obtain ⟨pid2, cp, hpid2, hcp, hplans⟩ := hc
      rw [hpid] at hpid2
      injection hpid2 with hpe
      subst hpe
      exact ⟨cp, hcp, hplans⟩
  · exact absurd hok (by simp)

/-! ## Claim C1: error handling of the schedule calls -/

/-- C1 (amended): for every tuple and every error raised during
`schedule_traintuple` or `schedule_testtuple` after the call begins, the
call releases the scoped per-job directory and surfaces the error to the
caller unchanged; however the tuple's status is left at Doing — the code
never sets Failed — so after a completed call the status is Done and after
a failed call it is Doing. -/
theorem schedule_error_releases_and_reraises (wdir : String) (env : TrainEnv) (t : Traintuple)
    (s : St) (envT : TestEnv) (tt : Testtuple) (s2 : St) :
    (schedule_traintuple wdir env t s).st.fs.hasPath (os_path_join wdir t.key) = false ∧
    (schedule_testtuple wdir envT tt s2).st.fs.hasPath (os_path_join wdir tt.key) = false ∧
    (∀ e, (schedule_traintuple wdir env t s).res = Except.error e →
      (schedule_traintuple wdir env t s).tup.status = Status.doing) ∧
    ((schedule_traintuple wdir env t s).res = Except.ok () →
      (schedule_traintuple wdir env t s).tup.status = Status.done) ∧
    (∀ e, (schedule_testtuple wdir envT tt s2).res = Except.error e →
      (schedule_testtuple wdir envT tt s2).tup.status = Status.doing) ∧
    ((schedule_testtuple wdir envT tt s2).res = Except.ok () →
      (schedule_testtuple wdir envT tt s2).tup.status = Status.done) :=
  ⟨train_run_dir_gone wdir env t s, test_run_dir_gone wdir envT tt s2,
   (train_run_status wdir env t s).1, (train_run_status wdir env t s).2,
   (test_run_status wdir envT tt s2).1, (test_run_status wdir envT tt s2).2⟩

/-- Counterexample to C1 as stated: a `schedule_traintuple` call whose
algorithm download fails surfaces the error but leaves the tuple status at
Doing — not Failed, and not in the set Done or Failed. -/
theorem schedule_error_status_counterexample :
    (schedule_traintuple exWdir exTrainEnvFail exCompositeTuple emptySt).res =
      Except.error Err.downloadError ∧
    (schedule_traintuple exWdir exTrainEnvFail exCompositeTuple emptySt).tup.status =
      Status.doing ∧
    (schedule_traintuple exWdir exTrainEnvFail exCompositeTuple emptySt).tup.status ≠
      Status.failed ∧
    (schedule_traintuple exWdir exTrainEnvFail exCompositeTuple emptySt).tup.status ≠
      Status.done :=
  ⟨rfl, rfl, by decide, by decide⟩

/-- Witness for the amended C1 at concrete runs: a failing run leaves the
status at Doing, a successful run at Done, and both release the scratch
directory. -/
theorem schedule_error_releases_and_reraises_witness :
    (schedule_traintuple exWdir exTrainEnvFail exCompositeTuple emptySt).st.fs.hasPath
      (os_path_join exWdir "tk1") = false ∧
    (schedule_traintuple exWdir exTrainEnvFail exCompositeTuple emptySt).tup.status =
      Status.doing ∧
    (schedule_traintuple exWdir (exTrainEnv "tk1") exCompositeTuple emptySt).tup.status =
      Status.done :=
  ⟨(schedule_error_releases_and_reraises exWdir exTrainEnvFail exCompositeTuple emptySt
      exTestEnvFail exTestTupleLocal emptySt).1,
   (schedule_error_releases_and_reraises exWdir exTrainEnvFail exCompositeTuple emptySt
      exTestEnvFail exTestTupleLocal emptySt).2.2.1 Err.downloadError rfl,
   (schedule_error_releases_and_reraises exWdir (exTrainEnv "tk1") exCompositeTuple emptySt
      exTestEnvFail exTestTupleLocal emptySt).2.2.2.1 rfl⟩

/-! ## Claim C5: plan counters untouched on failure -/

/-- C5: if a `schedule_traintuple` or `schedule_testtuple` call raises (all
errors occur before the tuple reaches Done), the compute-plan store — in
particular the referenced plan's `done_count` and status — is left exactly
as it was before the call. -/
theorem compute_plan_untouched_on_error (wdir : String) (env : TrainEnv) (t : Traintuple)
    (s : St) (envT : TestEnv) (tt : Testtuple) (s2 : St) :
    (∀ e, (schedule_traintuple wdir env t s).res = Except.error e →
      (schedule_traintuple wdir env t s).st.plans = s.plans) ∧
    (∀ e, (schedule_testtuple wdir envT tt s2).res = Except.error e →
      (schedule_testtuple wdir envT tt s2).st.plans = s2.plans) :=
  ⟨fun e he => train_run_plans_error wdir env t s e he,
   fun e he => test_run_plans_error wdir envT tt s2 e he⟩

/-- Witness for C5 at concrete failing runs on a store holding one plan. -/
theorem compute_plan_untouched_on_error_witness :
    (schedule_traintuple exWdir exTrainEnvFail exCompositeTuplePlan planSt).st.plans =
      planSt.plans ∧
    (schedule_testtuple exWdir exTestEnvFail exTestTupleLocal planSt).st.plans =
      planSt.plans :=
  ⟨(compute_plan_untouched_on_error exWdir exTrainEnvFail exCompositeTuplePlan planSt
      exTestEnvFail exTestTupleLocal planSt).1 Err.downloadError rfl,
   (compute_plan_untouched_on_error exWdir exTrainEnvFail exCompositeTuplePlan planSt
      exTestEnvFail exTestTupleLocal planSt).2 Err.notFound rfl⟩

/-! ## Claim C4: compute-plan progress -/

theorem lookupPlan_setPlan (plans : List (String × ComputePlan)) (pid : String)
    (cp x : ComputePlan) (h : lookupPlan plans pid = some cp) :
    lookupPlan (setPlan plans pid x) pid = some x := by
  induction plans with
  | nil => exact absurd h (by simp [lookupPlan])
  | cons kv rest ih =>
    unfold lookupPlan at h
    unfold setPlan
    by_cases hk : kv.1 = pid
    · simp only [List.map_cons, if_pos hk]
      unfold lookupPlan
      simp [hk]
    · simp only [List.map_cons, if_neg hk]
      unfold lookupPlan
      simp only [if_neg hk]
      rw [if_neg hk] at h
      exact ih h

theorem bumpPlan_eq (d N : Nat) (st : Status) :
    bumpPlan ⟨d, N, st⟩ =
      ⟨d + 1, N, if d + 1 = N then Status.done else st⟩ := by
  unfold bumpPlan
  dsimp only
  split <;> simp_all

/-- C4: starting from a plan record `⟨d, N, st0⟩` whose status is done
exactly when `d = N`, after `k` further serialized successful schedule
completions referencing it (in any order and mix of train and test tuples)
with `d + k ≤ N`, the plan reads `⟨d + k, N, st1⟩`: `done_count` counts
exactly the completions (so with `d = 0` and `k = N` it equals
`tuple_count`, and it never exceeds it while at most `N` completions
occur), and the status is Done exactly when `d + k = N` — in particular
not Done after fewer than `N` completions, and, applying the theorem to
every prefix of the trace, the plan transitions to Done exactly once, at
the `N`-th completion. -/
theorem computePlan_progress (wdir pid : String) (k : Nat) (s s' : St)
    (htr : CompletesPlan wdir pid s k s') (d N : Nat) (st0 : Status)
    (hlk : lookupPlan s.plans pid = some ⟨d, N, st0⟩) (hle : d + k ≤ N)
    (hst : st0 = Status.done ↔ d = N) :
    ∃ st1, lookupPlan s'.plans pid = some ⟨d + k, N, st1⟩ ∧
      (st1 = Status.done ↔ d + k = N) := by
  induction htr generalizing d st0 with
  | nil s1 =>
    exact ⟨st0, by simpa using hlk, by simpa using hst⟩
  | train env t s1 s'1 k1 hpid hok hrest ih =>
    obtain ⟨cp, hcp, hplans⟩ := train_run_plans_ok wdir env t s1 pid hpid hok
    rw [hlk] at hcp
    injection hcp with hcpe
    subst hcpe
    have hlk2 : lookupPlan (schedule_traintuple wdir env t s1).st.plans pid =
        some ⟨d + 1, N, if d + 1 = N then Status.done else st0⟩ := by
      rw [hplans, ← bumpPlan_eq]
      exact lookupPlan_setPlan _ _ _ _ hlk
    have hst2 : (if d + 1 = N then Status.done else st0) = Status.done ↔ d + 1 = N := by
      by_cases hdn : d + 1 = N
      · simp [hdn]
      · have hdne : d ≠ N := by omega
        simp only [if_neg hdn]
        constructor
        · intro hdone
          exact absurd (hst.1 hdone) hdne
        · intro hh
          exact absurd hh hdn
    have hres := ih (d + 1) (if d + 1 = N then Status.done else st0) hlk2 (by omega) hst2
    have harith : d + 1 + k1 = d + (k1 + 1) := by omega
    rw [harith] at hres
    exact hres
  | test env t s1 s'1 k1 hpid hok hrest ih =>
    obtain ⟨cp, hcp, hplans⟩ := test_run_plans_ok wdir env t s1 pid hpid hok
    rw [hlk] at hcp
    injection hcp with hcpe
    subst hcpe
    have hlk2 : lookupPlan (schedule_testtuple wdir env t s1).st.plans pid =
        some ⟨d + 1, N, if d + 1 = N then Status.done else st0⟩ := by
      rw [hplans, ← bumpPlan_eq]
      exact lookupPlan_setPlan _ _ _ _ hlk
    have hst2 : (if d + 1 = N then Status.done else st0) = Status.done ↔ d + 1 = N := by
      by_cases hdn : d + 1 = N
      · simp [hdn]
      · have hdne : d ≠ N := by omega
        simp only [if_neg hdn]
        constructor
        · intro hdone
          exact absurd (hst.1 hdone) hdne
        · intro hh
          exact absurd hh hdn
    have hres := ih (d + 1) (if d + 1 = N then Status.done else st0) hlk2 (by omega) hst2
    have harith : d + 1 + k1 = d + (k1 + 1) := by omega
    rw [harith] at hres
    exact hres

/-- Witness for C4: one successful composite-train completion on a
one-tuple plan takes `done_count` from 0 to 1 and the status to Done. -/
theorem computePlan_progress_witness :
    ∃ st1, lookupPlan
        ((schedule_traintuple exWdir (exTrainEnv "tk2") exCompositeTuplePlan planSt).st).plans
        "cp" = some ⟨0 + 1, 1, st1⟩ ∧ (st1 = Status.done ↔ 0 + 1 = 1) :=
  computePlan_progress exWdir "cp" 1 planSt
    (schedule_traintuple exWdir (exTrainEnv "tk2") exCompositeTuplePlan planSt).st
    (CompletesPlan.train (exTrainEnv "tk2") exCompositeTuplePlan planSt
      (schedule_traintuple exWdir (exTrainEnv "tk2") exCompositeTuplePlan planSt).st 0
      rfl rfl (CompletesPlan.nil _))
    0 1 Status.waiting rfl (by omega) (by simp)

/-! ## Claim C2: performance-file handling -/

theorem testPrep_ok_perf (wdir : String) (env : TestEnv) (d : String)
    (ft : FetchedTraintuple) (algo : Algo) (ob : Objective) (ds : Dataset) (t : Testtuple)
    (s0 : Ws) (rs : (String × String × List (String × Rat)) × Ws)
    (h : testPrep wdir env d ft algo ob ds t s0 = Except.ok rs) :
    ∃ obj, env.perfParse = Except.ok obj ∧ rs.1.2.2 = obj := by
  unfold testPrep at h
  dsimp only at h
  repeat' split at h
  all_goals first
    | exact Except.noConfusion h
    | (injection h with h2
       exact ⟨_, by assumption, by rw [← h2]⟩)

theorem testFinalize_perf (cp? : Option (String × ComputePlan)) (l lp : String)
    (obj : List (String × Rat)) (t : Testtuple) (s : St) :
    (testFinalize cp? l lp obj t s).1.dataset.perf = jsonGet obj "all" := by
  unfold testFinalize
  cases cp? <;> rfl

theorem testBody_perf (wdir : String) (env : TestEnv) (d : String) (t0 : Testtuple)
    (s0 : St) (ts : Testtuple × St) (h : testBody wdir env d t0 s0 = Except.ok ts) :
    ∃ obj, env.perfParse = Except.ok obj ∧ ts.1.dataset.perf = jsonGet obj "all" := by
  unfold testBody at h
  dsimp only at h
  repeat' split at h
  all_goals try exact Except.noConfusion h
  rename_i ft hft algo hal ob hob ds hds cpo hcpo rs hrs
  obtain ⟨obj, hobj, hrso⟩ := testPrep_ok_perf _ _ _ _ _ _ _ _ _ _ hrs
  injection h with h2
  refine ⟨obj, hobj, ?_⟩
  rw [← h2, testFinalize_perf, hrso]

/-- C2 (amended): the worker copies the score stage's `perf.json` and runs
it through the JSON parser; a missing file or a parse failure surface as
the underlying file-not-found / JSON-decode errors — the code has no
`MalformedOutputError`, and a JSON object lacking the `"all"` key is not an
error at all: the call succeeds and `dataset.perf` is set to `dict.get`, so
to the value of `"all"` when present (e.g. 0.87) and to None when absent. -/
theorem test_perf_semantics (wdir : String) (env : TestEnv) (t : Testtuple) (s : St)
    (hok : (schedule_testtuple wdir env t s).res = Except.ok ()) :
    ∃ obj, env.perfParse = Except.ok obj ∧
      (schedule_testtuple wdir env t s).tup.dataset.perf = jsonGet obj "all" := by
  unfold schedule_testtuple at hok ⊢
  dsimp only at hok ⊢
  split at hok
  · rename_i ts heq
    exact testBody_perf _ _ _ _ _ _ heq
  · exact absurd hok (by simp)

/-- Counterexample to C2 as stated: a performance file whose JSON object
lacks the `"all"` key does not make the call fail with any error — the
call succeeds, the status is Done, and the perf slot is None. -/
theorem test_perf_no_all_counterexample :
    (schedule_testtuple exWdir (exTestEnv "test1" exDatasetLocal [ "a" ] [ ("x", 1) ])
      exTestTupleLocal emptySt).res = Except.ok () ∧
    (schedule_testtuple exWdir (exTestEnv "test1" exDatasetLocal [ "a" ] [ ("x", 1) ])
      exTestTupleLocal emptySt).tup.dataset.perf = none ∧
    (schedule_testtuple exWdir (exTestEnv "test1" exDatasetLocal [ "a" ] [ ("x", 1) ])
      exTestTupleLocal emptySt).tup.status = Status.done :=
  ⟨rfl, rfl, rfl⟩

/-- Witness for the amended C2: a well-formed performance object with
`"all" = 0.87` yields `perf = 0.87` after a successful run. -/
theorem test_perf_semantics_witness :
    (∃ obj, (exTestEnv "test1" exDatasetLocal [ "a" ] [ ("all", (87 : Rat)/100) ]).perfParse =
        Except.ok obj ∧
      (schedule_testtuple exWdir
        (exTestEnv "test1" exDatasetLocal [ "a" ] [ ("all", (87 : Rat)/100) ])
        exTestTupleLocal emptySt).tup.dataset.perf = jsonGet obj "all") ∧
    (schedule_testtuple exWdir
      (exTestEnv "test1" exDatasetLocal [ "a" ] [ ("all", (87 : Rat)/100) ])
      exTestTupleLocal emptySt).tup.dataset.perf = some ((87 : Rat)/100) :=
  ⟨test_perf_semantics exWdir
    (exTestEnv "test1" exDatasetLocal [ "a" ] [ ("all", (87 : Rat)/100) ])
    exTestTupleLocal emptySt rfl, rfl⟩

/-! ## Decimal representation: injectivity and digit characters -/

theorem digitChar_injOn : ∀ a < 10, ∀ b < 10, Nat.digitChar a = Nat.digitChar b → a = b := by
  decide

theorem digitChar_ne_us : ∀ a < 10, Nat.digitChar a ≠ ('_' : Char) := by
  decide

theorem toDigitsCore_succ (f n : Nat) (ds : List Char) :
    Nat.toDigitsCore 10 (f + 1) n ds =
      if n / 10 = 0 then Nat.digitChar (n % 10) :: ds
      else Nat.toDigitsCore 10 f (n / 10) (Nat.digitChar (n % 10) :: ds) := rfl

theorem toDigitsCore_acc (fuel : Nat) : ∀ (n : Nat) (ds : List Char),
    Nat.toDigitsCore 10 fuel n ds = Nat.toDigitsCore 10 fuel n [] ++ ds := by
  induction fuel with
  | zero => intro n ds; rfl
  | succ f ih =>
    intro n ds
    rw [toDigitsCore_succ, toDigitsCore_succ]
    by_cases h : n / 10 = 0
    · simp [h]
    · simp only [if_neg h]
      rw [ih (n / 10) (Nat.digitChar (n % 10) :: ds), ih (n / 10) [Nat.digitChar (n % 10)]]
      simp

theorem toDigitsCore_fuel (n : Nat) : ∀ (f g : Nat), n < f → n < g →
    Nat.toDigitsCore 10 f n [] = Nat.toDigitsCore 10 g n [] := by
  induction n using Nat.strong_induction_on with
  | _ n ih =>
    intro f g hf hg
    cases f with
    | zero => omega
    | succ f1 =>
      cases g with
      | zero => omega
      | succ g1 =>
        rw [toDigitsCore_succ, toDigitsCore_succ]
        by_cases h : n / 10 = 0
        · simp [h]
        · simp only [if_neg h]
          rw [toDigitsCore_acc f1, toDigitsCore_acc g1,
            ih (n / 10) (by omega) f1 g1 (by omega) (by omega)]

theorem toDigits_small {n : Nat} (h : n < 10) : Nat.toDigits 10 n = [Nat.digitChar n] := by
  unfold Nat.toDigits
  rw [toDigitsCore_succ]
  have h0 : n / 10 = 0 := by omega
  simp [h0, Nat.mod_eq_of_lt h]

theorem toDigits_rec {n : Nat} (h : 10 ≤ n) :
    Nat.toDigits 10 n = Nat.toDigits 10 (n / 10) ++ [Nat.digitChar (n % 10)] := by
  unfold Nat.toDigits
  rw [toDigitsCore_succ]
  have h0 : ¬ n / 10 = 0 := by omega
  rw [if_neg h0, toDigitsCore_acc, toDigitsCore_fuel (n / 10) n (n / 10 + 1) (by omega) (by omega)]

theorem toDigits_ne_nil (n : Nat) : Nat.toDigits 10 n ≠ [] := by
  by_cases h : n < 10
  · rw [toDigits_small h]; simp
  · rw [toDigits_rec (by omega)]; simp

theorem us_not_mem_toDigits (n : Nat) : ('_' : Char) ∉ Nat.toDigits 10 n := by
  induction n using Nat.strong_induction_on with
  | _ n ih =>
    by_cases h : n < 10
    · rw [toDigits_small h]
      simp only [List.mem_singleton]
      intro hh
      exact digitChar_ne_us n h hh.symm
    · rw [toDigits_rec (by omega)]
      simp only [List.mem_append, List.mem_singleton]
      rintro (hmem | heq)
      · exact ih (n / 10) (by omega) hmem
      · exact digitChar_ne_us (n % 10) (by omega) heq.symm

theorem toDigits_inj : ∀ a, ∀ b : Nat, Nat.toDigits 10 a = Nat.toDigits 10 b → a = b := by
  intro a
  induction a using Nat.strong_induction_on with
  | _ a ih =>
    intro b h
    by_cases ha : a < 10 <;> by_cases hb : b < 10
    · rw [toDigits_small ha, toDigits_small hb] at h
      injection h with h1
      exact digitChar_injOn a ha b hb h1
    · exfalso
      rw [toDigits_small ha, toDigits_rec (n := b) (by omega)] at h
      rcases List.exists_cons_of_ne_nil (toDigits_ne_nil (b / 10)) with ⟨c, cs, hcc⟩
      rw [hcc] at h
      have hlen := congrArg List.length h
      simp [List.length_append] at hlen
    · exfalso
      rw [toDigits_rec (n := a) (by omega), toDigits_small hb] at h
      rcases List.exists_cons_of_ne_nil (toDigits_ne_nil (a / 10)) with ⟨c, cs, hcc⟩
      rw [hcc] at h
      have hlen := congrArg List.length h
      simp [List.length_append] at hlen
    · rw [toDigits_rec (n := a) (by omega), toDigits_rec (n := b) (by omega)] at h
      have h1 := congrArg List.dropLast h
      simp only [List.dropLast_concat] at h1
      have h2 := congrArg List.getLast? h
      simp only [List.getLast?_concat] at h2
      injection h2 with h2'
      have hdiv : a / 10 = b / 10 := ih (a / 10) (by omega) (b / 10) h1
      have hmod : a % 10 = b % 10 := digitChar_injOn _ (by omega) _ (by omega) h2'
      omega

theorem string_data_inj {s t : String} (h : s.data = t.data) : s = t := by
  cases s
  cases t
  cases h
  rfl

theorem repr_inj_nat (a b : Nat) (h : Nat.repr a = Nat.repr b) : a = b := by
  apply toDigits_inj
  have hd := congrArg String.data h
  simpa [Nat.repr, List.asString] using hd

theorem us_not_mem_repr (n : Nat) : ('_' : Char) ∉ (Nat.repr n).data := by
  simpa [Nat.repr, List.asString] using us_not_mem_toDigits n

theorem append_us_inj : ∀ (xs xs' ys ys' : List Char), ('_' : Char) ∉ xs → ('_' : Char) ∉ xs' →
    xs ++ '_' :: ys = xs' ++ '_' :: ys' → xs = xs' ∧ ys = ys' := by
  intro xs
  induction xs with
  | nil =>
    intro xs' ys ys' hx hx' h
    cases xs' with
    | nil =>
      simp only [List.nil_append] at h
      injection h with h1 h2
      exact ⟨rfl, h2⟩
    | cons c cs =>
      simp only [List.nil_append, List.cons_append] at h
      injection h with h1 h2
      rw [← h1] at hx'
      simp at hx'
  | cons d dsx ih =>
    intro xs' ys ys' hx hx' h
    cases xs' with
    | nil =>
      simp only [List.cons_append, List.nil_append] at h
      injection h with h1 h2
      rw [h1] at hx
      simp at hx
    | cons c cs =>
      simp only [List.cons_append] at h
      injection h with h1 h2
      have hx2 : ('_' : Char) ∉ dsx := fun hm => hx (List.mem_cons_of_mem _ hm)
      have hx2' : ('_' : Char) ∉ cs := fun hm => hx' (List.mem_cons_of_mem _ hm)
      obtain ⟨ha, hb⟩ := ih cs ys ys' hx2 hx2' h2
      exact ⟨by rw [h1, ha], hb⟩

theorem model_link_name_inj_idx (i j : Nat) (m m' : InModel)
    (h : model_link_name i m = model_link_name j m') : i = j := by
  unfold model_link_name at h
  have hd := congrArg String.data h
  simp only [String.data_append] at hd
  rw [List.append_assoc, List.append_assoc] at hd
  have hus : ("_").data ++ m.key.data = '_' :: m.key.data := rfl
  have hus' : ("_").data ++ m'.key.data = '_' :: m'.key.data := rfl
  rw [hus, hus'] at hd
  obtain ⟨h1, -⟩ := append_us_inj _ _ _ _ (us_not_mem_repr i) (us_not_mem_repr j) hd
  exact repr_inj_nat i j (string_data_inj h1)

theorem link_names_nodup (ms : List InModel) :
    ((ms.enum).map (fun p => model_link_name p.1 p.2)).Nodup := by
  have h1 : (ms.enum.map Prod.fst).Nodup := by
    rw [List.enum_map_fst]
    exact List.nodup_range _
  have h2 : ms.enum.Nodup := List.Nodup.of_map Prod.fst h1
  apply List.Nodup.map_on ?_ h2
  intro x hx y hy hxy
  have hij : x.1 = y.1 := model_link_name_inj_idx _ _ _ _ hxy
  exact List.inj_on_of_nodup_map h1 hx hy hij

/-! ## Trace extraction lemmas -/

@[simp] theorem spawnCommands_nil : spawnCommands [] = [] := rfl

@[simp] theorem spawnCommands_append (a b : List Event) :
    spawnCommands (a ++ b) = spawnCommands a ++ spawnCommands b :=
  List.filterMap_append a b _

@[simp] theorem spawnCommands_cons_spawn (n i c : String) (v : List (String × VolSpec))
    (evs : List Event) :
    spawnCommands (Event.spawn n i c v :: evs) = c :: spawnCommands evs := rfl

@[simp] theorem spawnCommands_cons_link (a b : String) (evs : List Event) :
    spawnCommands (Event.link a b :: evs) = spawnCommands evs := rfl

@[simp] theorem spawnCommands_cons_copytree (a b : String) (evs : List Event) :
    spawnCommands (Event.copytree a b :: evs) = spawnCommands evs := rfl

@[simp] theorem spawnCommands_cons_copyFile (a b : String) (evs : List Event) :
    spawnCommands (Event.copyFile a b :: evs) = spawnCommands evs := rfl

@[simp] theorem spawnCommands_cons_mat (d : String) (evs : List Event) :
    spawnCommands (Event.materializeData d :: evs) = spawnCommands evs := rfl

@[simp] theorem spawnVolumes_nil : spawnVolumes [] = [] := rfl

@[simp] theorem spawnVolumes_append (a b : List Event) :
    spawnVolumes (a ++ b) = spawnVolumes a ++ spawnVolumes b :=
  List.filterMap_append a b _

@[simp] theorem spawnVolumes_cons_spawn (n i c : String) (v : List (String × VolSpec))
    (evs : List Event) :
    spawnVolumes (Event.spawn n i c v :: evs) = v :: spawnVolumes evs := rfl

@[simp] theorem spawnVolumes_cons_link (a b : String) (evs : List Event) :
    spawnVolumes (Event.link a b :: evs) = spawnVolumes evs := rfl

@[simp] theorem spawnVolumes_cons_copytree (a b : String) (evs : List Event) :
    spawnVolumes (Event.copytree a b :: evs) = spawnVolumes evs := rfl

@[simp] theorem spawnVolumes_cons_copyFile (a b : String) (evs : List Event) :
    spawnVolumes (Event.copyFile a b :: evs) = spawnVolumes evs := rfl

@[simp] theorem spawnVolumes_cons_mat (d : String) (evs : List Event) :
    spawnVolumes (Event.materializeData d :: evs) = spawnVolumes evs := rfl

@[simp] theorem linkPairs_nil : linkPairs [] = [] := rfl

@[simp] theorem linkPairs_append (a b : List Event) :
    linkPairs (a ++ b) = linkPairs a ++ linkPairs b :=
  List.filterMap_append a b _

@[simp] theorem linkPairs_cons_spawn (n i c : String) (v : List (String × VolSpec))
    (evs : List Event) :
    linkPairs (Event.spawn n i c v :: evs) = linkPairs evs := rfl

@[simp] theorem linkPairs_cons_link (a b : String) (evs : List Event) :
    linkPairs (Event.link a b :: evs) = (a, b) :: linkPairs evs := rfl

@[simp] theorem linkPairs_cons_copytree (a b : String) (evs : List Event) :
    linkPairs (Event.copytree a b :: evs) = linkPairs evs := rfl

@[simp] theorem linkPairs_cons_copyFile (a b : String) (evs : List Event) :
    linkPairs (Event.copyFile a b :: evs) = linkPairs evs := rfl

@[simp] theorem linkPairs_cons_mat (d : String) (evs : List Event) :
    linkPairs (Event.materializeData d :: evs) = linkPairs evs := rfl

@[simp] theorem copyPairs_nil : copyPairs [] = [] := rfl

@[simp] theorem copyPairs_append (a b : List Event) :
    copyPairs (a ++ b) = copyPairs a ++ copyPairs b :=
  List.filterMap_append a b _

@[simp] theorem copyPairs_cons_spawn (n i c : String) (v : List (String × VolSpec))
    (evs : List Event) :
    copyPairs (Event.spawn n i c v :: evs) = copyPairs evs := rfl

@[simp] theorem copyPairs_cons_link (a b : String) (evs : List Event) :
    copyPairs (Event.link a b :: evs) = copyPairs evs := rfl

@[simp] theorem copyPairs_cons_copytree (a b : String) (evs : List Event) :
    copyPairs (Event.copytree a b :: evs) = copyPairs evs := rfl

@[simp] theorem copyPairs_cons_copyFile (a b : String) (evs : List Event) :
    copyPairs (Event.copyFile a b :: evs) = (a, b) :: copyPairs evs := rfl

@[simp] theorem copyPairs_cons_mat (d : String) (evs : List Event) :
    copyPairs (Event.materializeData d :: evs) = copyPairs evs := rfl

@[simp] theorem countMaterialize_nil : countMaterialize [] = 0 := rfl

@[simp] theorem countMaterialize_append (a b : List Event) :
    countMaterialize (a ++ b) = countMaterialize a + countMaterialize b := by
  unfold countMaterialize
  rw [List.filter_append, List.length_append]

@[simp] theorem countMaterialize_cons_spawn (n i c : String) (v : List (String × VolSpec))
    (evs : List Event) :
    countMaterialize (Event.spawn n i c v :: evs) = countMaterialize evs := rfl

@[simp] theorem countMaterialize_cons_link (a b : String) (evs : List Event) :
    countMaterialize (Event.link a b :: evs) = countMaterialize evs := rfl

@[simp] theorem countMaterialize_cons_copytree (a b : String) (evs : List Event) :
    countMaterialize (Event.copytree a b :: evs) = countMaterialize evs := rfl

@[simp] theorem countMaterialize_cons_copyFile (a b : String) (evs : List Event) :
    countMaterialize (Event.copyFile a b :: evs) = countMaterialize evs := rfl

@[simp] theorem countMaterialize_cons_mat (d : String) (evs : List Event) :
    countMaterialize (Event.materializeData d :: evs) = countMaterialize evs + 1 := by
  unfold countMaterialize
  simp [List.filter_cons, Nat.add_comm]

@[simp] theorem spawnCommands_map_link {α : Type} (l : List α) (f g : α → String) :
    spawnCommands (l.map (fun a => Event.link (f a) (g a))) = [] := by
  induction l with
  | nil => rfl
  | cons a l ih => simp [ih]

@[simp] theorem spawnCommands_map_copytree {α : Type} (l : List α) (f g : α → String) :
    spawnCommands (l.map (fun a => Event.copytree (f a) (g a))) = [] := by
  induction l with
  | nil => rfl
  | cons a l ih => simp [ih]

@[simp] theorem spawnVolumes_map_copytree {α : Type} (l : List α) (f g : α → String) :
    spawnVolumes (l.map (fun a => Event.copytree (f a) (g a))) = [] := by
  induction l with
  | nil => rfl
  | cons a l ih => simp [ih]

@[simp] theorem linkPairs_map_copytree {α : Type} (l : List α) (f g : α → String) :
    linkPairs (l.map (fun a => Event.copytree (f a) (g a))) = [] := by
  induction l with
  | nil => rfl
  | cons a l ih => simp [ih]

@[simp] theorem copyPairs_map_copytree {α : Type} (l : List α) (f g : α → String) :
    copyPairs (l.map (fun a => Event.copytree (f a) (g a))) = [] := by
  induction l with
  | nil => rfl
  | cons a l ih => simp [ih]

@[simp] theorem copyPairs_map_link {α : Type} (l : List α) (f g : α → String) :
    copyPairs (l.map (fun a => Event.link (f a) (g a))) = [] := by
  induction l with
  | nil => rfl
  | cons a l ih => simp [ih]

@[simp] theorem countMaterialize_map_copytree {α : Type} (l : List α) (f g : α → String) :
    countMaterialize (l.map (fun a => Event.copytree (f a) (g a))) = 0 := by
  induction l with
  | nil => rfl
  | cons a l ih => simp [ih]

theorem linkPairs_map_link {α : Type} (l : List α) (f g : α → String) :
    linkPairs (l.map (fun a => Event.link (f a) (g a))) = l.map (fun a => (f a, g a)) := by
  induction l with
  | nil => rfl
  | cons a l ih => simp [ih]

@[simp] theorem planLocalVolume_events (w : String) (pid? : Option String)
    (v : List (String × VolSpec)) (s : Ws) :
    (planLocalVolume w pid? v s).2.events = s.events := by
  unfold planLocalVolume
  cases pid? <;> rfl

/-! ## Step observation lemmas -/

theorem pdvTrain_ok_obs {ed : Except Err Dataset} {sf : String → Except Err DataSample}
    {d : String} {t : Traintuple} {v : List (String × VolSpec)} {s : Ws}
    {vs : List (String × VolSpec) × Ws}
    (h : prepareDataVolumesTrain ed sf d t v s = Except.ok vs) :
    ∃ del, vs.2.events = s.events ++ del ∧ spawnCommands del = [] ∧ spawnVolumes del = [] ∧
      linkPairs del = [] ∧ copyPairs del = [] := by
  unfold prepareDataVolumesTrain at h
  repeat' split at h
  all_goals try exact Except.noConfusion h
  · rename_i hne ds hds hloc x dvs hgdv
    injection h with h2
    obtain ⟨samples, hsm, hev⟩ := gdv_ok_events _ _ _ _ _ _ hgdv
    refine ⟨samples.map (fun x => Event.copytree x.path (os_path_join dvs.1 x.pkhash)) ++
      [Event.materializeData dvs.1], ?_, ?_, ?_, ?_, ?_⟩
    · rw [← h2]
      dsimp only
      rw [hev, List.append_assoc]
    · simp
    · simp
    · simp
    · simp
  · injection h with h2
    exact ⟨[], by rw [← h2]; simp, rfl, rfl, rfl, rfl⟩
  · injection h with h2
    exact ⟨[], by rw [← h2]; simp, rfl, rfl, rfl, rfl⟩

theorem pdvTest_ok_obs {k : String} {sf : String → Except Err DataSample}
    {d : String} {ks : List String} {v : List (String × VolSpec)} {s : Ws}
    {vds : List (String × VolSpec) × Ws × Option String}
    (h : prepareDataVolumesTest k sf d ks v s = Except.ok vds) :
    (∃ del, vds.2.1.events = s.events ++ del ∧ spawnCommands del = [] ∧
      spawnVolumes del = [] ∧ copyPairs del = [] ∧
      countMaterialize del = (if _is_local k then 1 else 0)) ∧
    (_is_local k = true → vds.2.2 = some (os_path_join d "data") ∧
      vds.1 = dictSet v (os_path_join d "data") _VOLUME_INPUT_DATASAMPLES) ∧
    (_is_local k = false → vds.2.2 = none ∧ vds.1 = v ∧ vds.2.1 = s) := by
  unfold prepareDataVolumesTest at h
  split at h
  · rename_i hloc
    split at h
    · exact Except.noConfusion h
    · rename_i dvs hgdv
      injection h with h2
      obtain ⟨samples, hsm, hev⟩ := gdv_ok_events _ _ _ _ _ _ hgdv
      have hdv : dvs.1 = os_path_join d "data" := gdv_ok_dv _ _ _ _ _ _ hgdv
      constructor
      · refine ⟨samples.map (fun x => Event.copytree x.path (os_path_join dvs.1 x.pkhash)) ++
          [Event.materializeData dvs.1], ?_, by simp, by simp, by simp, by simp [hloc]⟩
        rw [← h2]
        dsimp only
        rw [hev, List.append_assoc]
      · constructor
        · intro h3
          rw [← h2]
          dsimp only
          rw [hdv]
          exact ⟨rfl, rfl⟩
        · intro h3
          rw [hloc] at h3
          exact Bool.noConfusion h3
  · rename_i hloc
    injection h with h2
    have hl : _is_local k = false := by
      cases hx : _is_local k
      · rfl
      · exact absurd hx hloc
    refine ⟨⟨[], by rw [← h2]; simp, rfl, rfl, rfl, by simp [hl]⟩, ?_, ?_⟩
    · intro h3
      rw [h3] at hl
      exact Bool.noConfusion hl
    · intro h3
      rw [← h2]
      exact ⟨rfl, rfl, rfl⟩

theorem testModels_ok_obs {ty : TraintupleType} {ft : FetchedTraintuple} {mv c : String}
    {s : Ws} {cs : String × Ws}
    (h : testModelsStep ty ft mv c s = Except.ok cs) :
    ∃ args del, cs.1 = c ++ args ∧ cs.2.events = s.events ++ del ∧
      spawnCommands del = [] ∧ spawnVolumes del = [] ∧ copyPairs del = [] ∧
      countMaterialize del = 0 := by
  unfold testModelsStep at h
  cases ty with
  | traintuple =>
    cases hm : ft.out_model with
    | none => rw [hm] at h; exact Except.noConfusion h
    | some m =>
      rw [hm] at h
      dsimp only at h
      injection h with h2
      exact ⟨" " ++ _get_address_in_container m.key mv _VOLUME_MODELS_RW,
        [Event.link m.storage_address (os_path_join mv m.key)],
        by rw [← h2]; dsimp only; rw [String.append_assoc],
        by rw [← h2]; rfl, rfl, rfl, rfl, rfl⟩
  | aggregatetuple =>
    cases hm : ft.out_model with
    | none => rw [hm] at h; exact Except.noConfusion h
    | some m =>
      rw [hm] at h
      dsimp only at h
      injection h with h2
      exact ⟨" " ++ _get_address_in_container m.key mv _VOLUME_MODELS_RW,
        [Event.link m.storage_address (os_path_join mv m.key)],
        by rw [← h2]; dsimp only; rw [String.append_assoc],
        by rw [← h2]; rfl, rfl, rfl, rfl, rfl⟩
  | composite_traintuple =>
    cases hh : ft.out_head_model with
    | none => rw [hh] at h; dsimp only at h; exact Except.noConfusion h
    | some hmod =>
      cases hht : ft.out_trunk_model with
      | none => rw [hh, hht] at h; dsimp only at h; exact Except.noConfusion h
      | some tmod =>
        rw [hh, hht] at h
        dsimp only at h
        injection h with h2
        exact ⟨_get_command_models_composite_test hmod tmod mv _VOLUME_MODELS_RO,
          [Event.link hmod.storage_address (os_path_join mv hmod.hash_),
           Event.link tmod.storage_address (os_path_join mv tmod.hash_)],
          by rw [← h2], by rw [← h2]; simp [linkFile], rfl, rfl, rfl, rfl⟩

theorem prepare_input_models_composite_none (d : String) (t : Traintuple) (s : Ws)
    (hk : t.kind = TrainKind.composite) (hh : t.in_head_model = none)
    (ht : t.in_trunk_model = none) :
    prepare_input_models d t s =
      ({ s with fs := (_mkdir (_mkdir s.fs (os_path_join d "input_models")).1
          (os_path_join d "output_models")).1 },
       dictSet (dictSet [] (os_path_join d "input_models") _VOLUME_INPUT_MODELS_RO)
         (os_path_join d "output_models") _VOLUME_OUTPUT_MODELS_RW,
       some (os_path_join d "input_models"), some (os_path_join d "output_models"), none) := by
  unfold prepare_input_models
  rw [if_pos hk, hh, ht]
  dsimp only
  rw [mkdir_path, mkdir_path]

theorem prepare_input_models_inmodels (d : String) (t : Traintuple) (s : Ws)
    (ms : List InModel) (hk : ¬ t.kind = TrainKind.composite) (hm : t.in_models = some ms) :
    prepare_input_models d t s =
      (linkInputModels (os_path_join d "models") ms
        { s with fs := (_mkdir s.fs (os_path_join d "models")).1 },
       dictSet [] (os_path_join d "models") _VOLUME_MODELS_RW, none, none,
       some (os_path_join d "models")) := by
  unfold prepare_input_models
  rw [if_neg hk, hm]
  dsimp only
  rw [mkdir_path]

theorem mem_dictSet_self (d : List (String × VolSpec)) (k : String) (v : VolSpec) :
    (k, v) ∈ dictSet d k v := by
  unfold dictSet
  split
  · rename_i hany
    obtain ⟨kv0, hkv0, hp⟩ := List.any_eq_true.mp hany
    apply List.mem_map.mpr
    refine ⟨kv0, hkv0, ?_⟩
    have hk : kv0.1 = k := of_decide_eq_true hp
    rw [if_pos hk, hk]
  · exact List.mem_append_right _ (List.mem_singleton_self _)

theorem mem_dictSet_elim {d : List (String × VolSpec)} {k : String} {v : VolSpec}
    {kv : String × VolSpec} (h : kv ∈ dictSet d k v) : kv ∈ d ∨ kv.2 = v := by
  unfold dictSet at h
  split at h
  · obtain ⟨kv0, hkv0, hf⟩ := List.mem_map.mp h
    by_cases hk : kv0.1 = k
    · right
      rw [if_pos hk] at hf
      rw [← hf]
    · left
      rw [if_neg hk] at hf
      rw [← hf]
      exact hkv0
  · rcases List.mem_append.mp h with hm | hm
    · exact Or.inl hm
    · right
      rw [List.mem_singleton.mp hm]

theorem mem_dictSet_mono {d : List (String × VolSpec)} {k : String} {v : VolSpec}
    {kv : String × VolSpec} (h : kv ∈ d) (hne : kv.1 ≠ k) : kv ∈ dictSet d k v := by
  unfold dictSet
  split
  · exact List.mem_map.mpr ⟨kv, h, by rw [if_neg hne]⟩
  · exact List.mem_append_left _ h

theorem planLocalVolume_fst_none (w : String) (v : List (String × VolSpec)) (s : Ws) :
    (planLocalVolume w none v s).1 = v := rfl

theorem planLocalVolume_fst_some (w pid : String) (v : List (String × VolSpec)) (s : Ws) :
    (planLocalVolume w (some pid) v s).1 =
      dictSet v (os_path_join (os_path_join (os_path_join w "compute_plans") "local") pid)
        _VOLUME_LOCAL := by
  unfold planLocalVolume
  dsimp only
  rw [mkdir_path]

/-! ## Further projection and path helpers -/

theorem str_append_empty (s : String) : s ++ "" = s :=
  string_data_inj (by simp)

@[simp] theorem markDoing_train_kind (t : Traintuple) : t.markDoing.kind = t.kind := rfl

@[simp] theorem markDoing_train_key (t : Traintuple) : t.markDoing.key = t.key := rfl

@[simp] theorem markDoing_train_rank (t : Traintuple) : t.markDoing.rank = t.rank := rfl

@[simp] theorem markDoing_train_dataset (t : Traintuple) : t.markDoing.dataset = t.dataset := rfl

@[simp] theorem markDoing_train_cpid (t : Traintuple) :
    t.markDoing.compute_plan_id = t.compute_plan_id := rfl

@[simp] theorem markDoing_train_in_models (t : Traintuple) :
    t.markDoing.in_models = t.in_models := rfl

@[simp] theorem markDoing_train_in_head (t : Traintuple) :
    t.markDoing.in_head_model = t.in_head_model := rfl

@[simp] theorem markDoing_train_in_trunk (t : Traintuple) :
    t.markDoing.in_trunk_model = t.in_trunk_model := rfl

@[simp] theorem markDoing_test_key (t : Testtuple) : t.markDoing.key = t.key := rfl

@[simp] theorem markDoing_test_dataset (t : Testtuple) : t.markDoing.dataset = t.dataset := rfl

@[simp] theorem markDoing_test_ttype (t : Testtuple) :
    t.markDoing.traintuple_type = t.traintuple_type := rfl

@[simp] theorem train_command_base_markDoing (t : Traintuple) :
    train_command_base t.markDoing = train_command_base t := rfl

theorem planLocalVolume_fst (w : String) (pid? : Option String) (v : List (String × VolSpec))
    (s : Ws) :
    (planLocalVolume w pid? v s).1 =
      match pid? with
      | some pid =>
        dictSet v (os_path_join (os_path_join (os_path_join w "compute_plans") "local") pid)
          _VOLUME_LOCAL
      | none => v := by
  cases pid? with
  | none => rfl
  | some pid =>
    dsimp only [planLocalVolume]
    rw [mkdir_path]

theorem testFinalize_events (cp? : Option (String × ComputePlan)) (l lp : String)
    (obj : List (String × Rat)) (t : Testtuple) (s : St) :
    (testFinalize cp? l lp obj t s).2.events = s.events := by
  unfold testFinalize
  cases cp? <;> rfl

/-- Observable trace of a successful `testPrep`: exactly two container
spawns (predict stage, then score stage), whose commands are the two stage
commands (the predict command extended by the model-path arguments) and
whose volume dictionaries are the two stage dictionaries; the data-sample
volume is materialized exactly once when the dataset is local and never
otherwise. -/
theorem testPrep_obs {wdir : String} {env : TestEnv} {d : String} {ft : FetchedTraintuple}
    {algo : Algo} {ob : Objective} {ds : Dataset} {t : Testtuple} {s0 : Ws}
    {rs : (String × String × List (String × Rat)) × Ws}
    (h : testPrep wdir env d ft algo ob ds t s0 = Except.ok rs) :
    ∃ args del, rs.2.events = s0.events ++ del ∧
      spawnCommands del =
        [predict_command_base (_is_local ds.key) ob.test_data_sample_keys.length ++ args,
         score_command (_is_local ds.key) ob.test_data_sample_keys.length] ∧
      spawnVolumes del =
        [test_stage1_volumes wdir d ds t.compute_plan_id, test_stage2_volumes d ds] ∧
      countMaterialize del = (if _is_local ds.key then 1 else 0) := by
  unfold testPrep at h
  dsimp only at h
  rw [mkdir_path, mkdir_path] at h
  repeat' split at h
  all_goals try exact Except.noConfusion h
  · rename_i x4 vds hpdv x3 cs hmod x2 lg1 hsp1 x1 lg2 hsp2 hloc hpath x0 obj hperf pq dv hpid
    injection h with h2
    subst h2
    obtain ⟨⟨del1, hev1, hsc1, hsv1, hcp1, hcm1⟩, hsome, -⟩ := pdvTest_ok_obs hpdv
    obtain ⟨hdv, hv1⟩ := hsome hloc
    rw [hpid] at hdv
    injection hdv with hdveq
    subst hdveq
    obtain ⟨args, del2, hcmd, hev2, hsc2, hsv2, hcp2, hcm2⟩ := testModels_ok_obs hmod
    dsimp only
    rw [mkdir_path, doSpawn_snd_events, doSpawn_snd_events, hev2, planLocalVolume_events, hev1]
    dsimp only
    simp only [List.append_assoc]
    refine ⟨args, _, rfl, ?_, ?_, ?_⟩
    · simp only [spawnCommands_append, spawnCommands_cons_spawn, spawnCommands_cons_copyFile,
        spawnCommands_nil, List.nil_append, List.append_nil, hsc1, hsc2]
      rw [hcmd, hloc]
      rfl
    · simp only [spawnVolumes_append, spawnVolumes_cons_spawn, spawnVolumes_cons_copyFile,
        spawnVolumes_nil, List.nil_append, List.append_nil, hsv1, hsv2]
      rw [planLocalVolume_fst, hv1]
      unfold test_stage1_volumes test_stage2_volumes
      dsimp only
      rw [hloc]
      simp
    · simp [hcm1, hcm2, hloc]
  · rename_i hnone
    have hx := ((pdvTest_ok_obs (by assumption)).2.1 (by assumption)).1
    rw [hnone] at hx
    exact Option.noConfusion hx
  · rename_i hnl hpath x0 obj hperf
    injection h with h2
    subst h2
    have hloc : _is_local ds.key = false := by
      cases hx : _is_local ds.key
      · rfl
      · exact absurd hx hnl
    obtain ⟨⟨del1, hev1, hsc1, hsv1, hcp1, hcm1⟩, -, hnonl⟩ := pdvTest_ok_obs (by assumption)
    obtain ⟨hdvn, hveq, hseq⟩ := hnonl hloc
    obtain ⟨args, del2, hcmd, hev2, hsc2, hsv2, hcp2, hcm2⟩ := testModels_ok_obs (by assumption)
    dsimp only
    rw [mkdir_path, doSpawn_snd_events, doSpawn_snd_events, hev2, planLocalVolume_events, hev1]
    dsimp only
    simp only [List.append_assoc]
    refine ⟨args, _, rfl, ?_, ?_, ?_⟩
    · simp only [spawnCommands_append, spawnCommands_cons_spawn, spawnCommands_cons_copyFile,
        spawnCommands_nil, List.nil_append, List.append_nil, hsc1, hsc2]
      rw [hcmd, hloc]
      rfl
    · simp only [spawnVolumes_append, spawnVolumes_cons_spawn, spawnVolumes_cons_copyFile,
        spawnVolumes_nil, List.nil_append, List.append_nil, hsv1, hsv2]
      rw [planLocalVolume_fst, hveq]
      unfold test_stage1_volumes test_stage2_volumes
      dsimp only
      rw [hloc]
      simp
    · simp [hcm1, hcm2, hloc]

/-- A successful `schedule_testtuple` call resolves all four assets, runs
the two-stage middle successfully inside the scoped job directory, and its
final trace is the middle's trace (the final block touches no events). -/
theorem test_run_ok_obs (wdir : String) (env : TestEnv) (t : Testtuple) (s : St)
    (h : (schedule_testtuple wdir env t s).res = Except.ok ()) :
    ∃ ft algo ob ds rs,
      env.traintuple = Except.ok ft ∧ env.algo = Except.ok algo ∧
      env.objective = Except.ok ob ∧ env.dataset = Except.ok ds ∧
      testPrep wdir env (os_path_join wdir t.key) ft algo ob ds t.markDoing
        { fs := (_mkdir s.fs (os_path_join wdir t.key)).1, events := s.events } = Except.ok rs ∧
      (schedule_testtuple wdir env t s).st.events = rs.2.events := by
  unfold schedule_testtuple at h ⊢
  dsimp only at h ⊢
  rw [mkdir_path] at h ⊢
  split at h
  · rename_i ts heq
    unfold testBody at heq
    dsimp only [St.ws] at heq
    repeat' split at heq
    all_goals try exact Except.noConfusion heq
    rename_i x1 ft hft x2 algo halgo x3 ob hob x4 ds hds x5 cp hcp x6 rs0 hprep
    injection heq with heq2
    refine ⟨ft, algo, ob, ds, rs0, hft, halgo, hob, hds, hprep, ?_⟩
    dsimp only
    rw [← heq2, testFinalize_events]
    rfl
  · exact absurd h (by simp)

/-- A successful `schedule_traintuple` call resolves the algorithm, runs the
preparation / execution / persistence middle successfully inside the scoped
job directory, and the final trace and output-model slots are the middle's
(the final block only sets logs, status and plan progress). -/
theorem train_run_ok_obs (wdir : String) (env : TrainEnv) (t : Traintuple) (s : St)
    (h : (schedule_traintuple wdir env t s).res = Except.ok ()) :
    ∃ algo ltw,
      env.algo = Except.ok algo ∧
      trainPrep wdir env (os_path_join wdir t.key) algo t.markDoing
        { fs := (_mkdir s.fs (os_path_join wdir t.key)).1, events := s.events } = Except.ok ltw ∧
      (schedule_traintuple wdir env t s).st.events = ltw.2.2.events ∧
      (schedule_traintuple wdir env t s).tup.out_model = ltw.2.1.out_model ∧
      (schedule_traintuple wdir env t s).tup.out_head_model = ltw.2.1.out_head_model ∧
      (schedule_traintuple wdir env t s).tup.out_trunk_model = ltw.2.1.out_trunk_model := by
  unfold schedule_traintuple at h ⊢
  dsimp only at h ⊢
  rw [mkdir_path] at h ⊢
  split at h
  · rename_i ts heq
    unfold trainBody at heq
    dsimp only [St.ws] at heq
    repeat' split at heq
    all_goals try exact Except.noConfusion heq
    rename_i x1 algo halgo x2 u hpc x3 ltw hprep
    obtain ⟨hts1, hcase⟩ := trainFinalize_ok heq
    refine ⟨algo, ltw, halgo, hprep, ?_, ?_, ?_, ?_⟩
    · dsimp only
      rcases hcase with ⟨-, h2⟩ | ⟨pid, cp, -, -, h2⟩ <;> rw [h2] <;> rfl
    · dsimp only
      rw [hts1]
    · dsimp only
      rw [hts1]
    · dsimp only
      rw [hts1]
  · exact absurd h (by simp)

/-! ## Claim C7: fake-data flags of the test stages -/

/-- C7 (amended): a successful `schedule_testtuple` call spawns exactly the
predict-stage and score-stage containers; on a non-local dataset with 5
test data sample keys the predict command contains
`--fake-data --n-fake-samples 5` and the score command contains
`--fake-data-mode` with the fake-labels mode followed by
`--n-fake-samples 5`.  On a local dataset the predict command is bare
(`predict`, no fake-data flags), but the score command still carries a
fake-data flag: it is exactly `--fake-data-mode` followed by the
no-fake-labels mode. -/
theorem test_fake_data_flags (wdir : String) (env : TestEnv) (t : Testtuple) (s : St)
    (h : (schedule_testtuple wdir env t s).res = Except.ok ()) :
    ∃ ds ob args del,
      env.dataset = Except.ok ds ∧ env.objective = Except.ok ob ∧
      (schedule_testtuple wdir env t s).st.events = s.events ++ del ∧
      spawnCommands del =
        [predict_command_base (_is_local ds.key) ob.test_data_sample_keys.length ++ args,
         score_command (_is_local ds.key) ob.test_data_sample_keys.length] ∧
      (_is_local ds.key = false → ob.test_data_sample_keys.length = 5 →
        strContains (predict_command_base (_is_local ds.key) ob.test_data_sample_keys.length)
          "--fake-data --n-fake-samples 5" = true ∧
        strContains (score_command (_is_local ds.key) ob.test_data_sample_keys.length)
          "--fake-data-mode fake_y --n-fake-samples 5" = true) ∧
      (_is_local ds.key = true →
        predict_command_base (_is_local ds.key) ob.test_data_sample_keys.length = "predict" ∧
        score_command (_is_local ds.key) ob.test_data_sample_keys.length =
          "--fake-data-mode " ++ METRICS_NO_FAKE_Y ∧
        strContains (score_command (_is_local ds.key) ob.test_data_sample_keys.length)
          "--fake-data-mode" = true) := by
  obtain ⟨ft, algo, ob, ds, rs, hft, halgo, hob, hds, hprep, hev⟩ := test_run_ok_obs wdir env t s h
  obtain ⟨args, del, hdel, hsc, hsv, hcm⟩ := testPrep_obs hprep
  refine ⟨ds, ob, args, del, hds, hob, ?_, hsc, ?_, ?_⟩
  · rw [hev, hdel]
  · intro hnl h5
    rw [hnl, h5]
    exact ⟨by decide, by decide⟩
  · intro hloc
    rw [hloc]
    refine ⟨rfl, rfl, ?_⟩
    show strContains ("--fake-data-mode " ++ METRICS_NO_FAKE_Y) "--fake-data-mode" = true
    decide

/-- Counterexample to C7 as stated: on a local dataset the score-stage
command is not free of fake-data flags — it is `--fake-data-mode no_fake_y`,
which contains `--fake-data-mode`. -/
theorem test_local_score_flag_counterexample :
    (schedule_testtuple exWdir
      (exTestEnv "test1" exDatasetLocal [ "a" ] [ ("all", (87 : Rat)/100) ])
      exTestTupleLocal emptySt).res = Except.ok () ∧
    spawnCommands (schedule_testtuple exWdir
      (exTestEnv "test1" exDatasetLocal [ "a" ] [ ("all", (87 : Rat)/100) ])
      exTestTupleLocal emptySt).st.events =
      [ "predict /sandbox/model/mk", "--fake-data-mode no_fake_y" ] ∧
    strContains "--fake-data-mode no_fake_y" "--fake-data-mode" = true :=
  ⟨rfl, rfl, by decide⟩

/-- Witness for the amended C7 at a concrete successful run on a remote
dataset with five test data sample keys. -/
theorem test_fake_data_flags_witness :
    (schedule_testtuple exWdir
      (exTestEnv "test2" exDatasetRemote [ "a", "b", "c", "d", "e" ] [ ("all", 1) ])
      exTestTupleRemote emptySt).res = Except.ok () ∧
    (∃ ds ob args del,
      (exTestEnv "test2" exDatasetRemote [ "a", "b", "c", "d", "e" ] [ ("all", 1) ]).dataset =
        Except.ok ds ∧
      (exTestEnv "test2" exDatasetRemote [ "a", "b", "c", "d", "e" ] [ ("all", 1) ]).objective =
        Except.ok ob ∧
      (schedule_testtuple exWdir
        (exTestEnv "test2" exDatasetRemote [ "a", "b", "c", "d", "e" ] [ ("all", 1) ])
        exTestTupleRemote emptySt).st.events = emptySt.events ++ del ∧
      spawnCommands del =
        [predict_command_base (_is_local ds.key) ob.test_data_sample_keys.length ++ args,
         score_command (_is_local ds.key) ob.test_data_sample_keys.length] ∧
      (_is_local ds.key = false → ob.test_data_sample_keys.length = 5 →
        strContains (predict_command_base (_is_local ds.key) ob.test_data_sample_keys.length)
          "--fake-data --n-fake-samples 5" = true ∧
        strContains (score_command (_is_local ds.key) ob.test_data_sample_keys.length)
          "--fake-data-mode fake_y --n-fake-samples 5" = true) ∧
      (_is_local ds.key = true →
        predict_command_base (_is_local ds.key) ob.test_data_sample_keys.length = "predict" ∧
        score_command (_is_local ds.key) ob.test_data_sample_keys.length =
          "--fake-data-mode " ++ METRICS_NO_FAKE_Y ∧
        strContains (score_command (_is_local ds.key) ob.test_data_sample_keys.length)
          "--fake-data-mode" = true)) :=
  ⟨rfl,
   test_fake_data_flags exWdir
     (exTestEnv "test2" exDatasetRemote [ "a", "b", "c", "d", "e" ] [ ("all", 1) ])
     exTestTupleRemote emptySt rfl⟩

/-! ## Claim C10: the shared data-sample volume of the test stages -/

theorem dictSet_values {d : List (String × VolSpec)} {k : String} {v w : VolSpec}
    {kv : String × VolSpec} (h : kv ∈ dictSet d k v)
    (hd : ∀ kv2 ∈ d, kv2.2 ≠ w) (hv : v ≠ w) : kv.2 ≠ w := by
  rcases mem_dictSet_elim h with hm | he
  · exact hd kv hm
  · rw [he]
    exact hv

theorem stage1_mem_data (wdir d : String) (ds : Dataset) (pid? : Option String)
    (hloc : _is_local ds.key = true)
    (hnc : ∀ pid, pid? = some pid →
      os_path_join d "data" ≠
        os_path_join (os_path_join (os_path_join wdir "compute_plans") "local") pid) :
    (os_path_join d "data", _VOLUME_INPUT_DATASAMPLES) ∈ test_stage1_volumes wdir d ds pid? := by
  unfold test_stage1_volumes
  dsimp only
  rw [hloc, if_pos rfl]
  cases pid? with
  | none => exact mem_dictSet_self _ _ _
  | some pid => exact mem_dictSet_mono (mem_dictSet_self _ _ _) (hnc pid rfl)

theorem stage2_mem_data (d : String) (ds : Dataset) (hloc : _is_local ds.key = true) :
    (os_path_join d "data", _VOLUME_INPUT_DATASAMPLES) ∈ test_stage2_volumes d ds := by
  unfold test_stage2_volumes
  dsimp only
  rw [hloc, if_pos rfl]
  exact mem_dictSet_self _ _ _

theorem stage1_no_data (wdir d : String) (ds : Dataset) (pid? : Option String)
    (hloc : _is_local ds.key = false) :
    ∀ kv ∈ test_stage1_volumes wdir d ds pid?, kv.2 ≠ _VOLUME_INPUT_DATASAMPLES := by
  intro kv hkv
  unfold test_stage1_volumes at hkv
  dsimp only at hkv
  rw [hloc, if_neg (by simp)] at hkv
  cases pid? with
  | none =>
    exact dictSet_values hkv
      (fun kv2 hm => dictSet_values hm
        (fun kv3 hm2 => dictSet_values hm2
          (fun kv4 hm3 => absurd hm3 (List.not_mem_nil _)) (by decide)) (by decide)) (by decide)
  | some pid =>
    exact dictSet_values hkv
      (fun kv1 hm0 => dictSet_values hm0
        (fun kv2 hm => dictSet_values hm
          (fun kv3 hm2 => dictSet_values hm2
            (fun kv4 hm3 => absurd hm3 (List.not_mem_nil _)) (by decide)) (by decide))
        (by decide)) (by decide)

theorem stage2_no_data (d : String) (ds : Dataset) (hloc : _is_local ds.key = false) :
    ∀ kv ∈ test_stage2_volumes d ds, kv.2 ≠ _VOLUME_INPUT_DATASAMPLES := by
  intro kv hkv
  unfold test_stage2_volumes at hkv
  dsimp only at hkv
  rw [hloc, if_neg (by simp)] at hkv
  exact dictSet_values hkv
    (fun kv2 hm => dictSet_values hm
      (fun kv3 hm2 => absurd hm2 (List.not_mem_nil _)) (by decide)) (by decide)

/-- C10: in every successful `schedule_testtuple` call on a local dataset
the data-sample volume is materialized exactly once and the identical host
data directory `wdir/tuple_key/data` is passed — mounted read-only at
`/sandbox/data` (`_VOLUME_INPUT_DATASAMPLES`) — in both the predict-stage
and the score-stage volume dictionaries (the score stage reuses the predict
stage's `data_volume`); on a non-local dataset nothing is materialized and
neither stage's dictionary contains a data-sample volume.  For the
predict-stage dictionary of a plan-attached tuple, the data directory must
differ from the plan-local directory (true of real keys, which contain no
path separators), since a Python dict insertion under an equal key would
overwrite the entry. -/
theorem test_data_volume_shared (wdir : String) (env : TestEnv) (t : Testtuple) (s : St)
    (hnc : ∀ pid, t.compute_plan_id = some pid →
      os_path_join (os_path_join wdir t.key) "data" ≠
        os_path_join (os_path_join (os_path_join wdir "compute_plans") "local") pid)
    (h : (schedule_testtuple wdir env t s).res = Except.ok ()) :
    ∃ ds del,
      env.dataset = Except.ok ds ∧
      (schedule_testtuple wdir env t s).st.events = s.events ++ del ∧
      countMaterialize del = (if _is_local ds.key then 1 else 0) ∧
      spawnVolumes del =
        [test_stage1_volumes wdir (os_path_join wdir t.key) ds t.compute_plan_id,
         test_stage2_volumes (os_path_join wdir t.key) ds] ∧
      (_is_local ds.key = true →
        (os_path_join (os_path_join wdir t.key) "data", _VOLUME_INPUT_DATASAMPLES) ∈
          test_stage1_volumes wdir (os_path_join wdir t.key) ds t.compute_plan_id ∧
        (os_path_join (os_path_join wdir t.key) "data", _VOLUME_INPUT_DATASAMPLES) ∈
          test_stage2_volumes (os_path_join wdir t.key) ds) ∧
      (_is_local ds.key = false →
        (∀ kv ∈ test_stage1_volumes wdir (os_path_join wdir t.key) ds t.compute_plan_id,
          kv.2 ≠ _VOLUME_INPUT_DATASAMPLES) ∧
        (∀ kv ∈ test_stage2_volumes (os_path_join wdir t.key) ds,
          kv.2 ≠ _VOLUME_INPUT_DATASAMPLES)) := by
  obtain ⟨ft, algo, ob, ds, rs, hft, halgo, hob, hds, hprep, hev⟩ := test_run_ok_obs wdir env t s h
  obtain ⟨args, del, hdel, hsc, hsv, hcm⟩ := testPrep_obs hprep
  rw [markDoing_test_cpid] at hsv
  refine ⟨ds, del, hds, ?_, hcm, hsv, ?_, ?_⟩
  · rw [hev, hdel]
  · intro hloc
    exact ⟨stage1_mem_data _ _ _ _ hloc hnc, stage2_mem_data _ _ hloc⟩
  · intro hloc
    exact ⟨stage1_no_data _ _ _ _ hloc, stage2_no_data _ _ hloc⟩

/-- Witness for C10 at a concrete successful run on the local dataset. -/
theorem test_data_volume_shared_witness :
    (schedule_testtuple exWdir
      (exTestEnv "test1" exDatasetLocal [ "a" ] [ ("all", 1) ])
      exTestTupleLocal emptySt).res = Except.ok () ∧
    (∃ ds del,
      (exTestEnv "test1" exDatasetLocal [ "a" ] [ ("all", 1) ]).dataset = Except.ok ds ∧
      (schedule_testtuple exWdir
        (exTestEnv "test1" exDatasetLocal [ "a" ] [ ("all", 1) ])
        exTestTupleLocal emptySt).st.events = emptySt.events ++ del ∧
      countMaterialize del = (if _is_local ds.key then 1 else 0) ∧
      spawnVolumes del =
        [test_stage1_volumes exWdir (os_path_join exWdir exTestTupleLocal.key) ds
          exTestTupleLocal.compute_plan_id,
         test_stage2_volumes (os_path_join exWdir exTestTupleLocal.key) ds] ∧
      (_is_local ds.key = true →
        (os_path_join (os_path_join exWdir exTestTupleLocal.key) "data",
          _VOLUME_INPUT_DATASAMPLES) ∈
          test_stage1_volumes exWdir (os_path_join exWdir exTestTupleLocal.key) ds
            exTestTupleLocal.compute_plan_id ∧
        (os_path_join (os_path_join exWdir exTestTupleLocal.key) "data",
          _VOLUME_INPUT_DATASAMPLES) ∈
          test_stage2_volumes (os_path_join exWdir exTestTupleLocal.key) ds) ∧
      (_is_local ds.key = false →
        (∀ kv ∈ test_stage1_volumes exWdir (os_path_join exWdir exTestTupleLocal.key) ds
            exTestTupleLocal.compute_plan_id,
          kv.2 ≠ _VOLUME_INPUT_DATASAMPLES) ∧
        (∀ kv ∈ test_stage2_volumes (os_path_join exWdir exTestTupleLocal.key) ds,
          kv.2 ≠ _VOLUME_INPUT_DATASAMPLES))) :=
  ⟨rfl,
   test_data_volume_shared exWdir
     (exTestEnv "test1" exDatasetLocal [ "a" ] [ ("all", 1) ])
     exTestTupleLocal emptySt
     (fun _ hp => Option.noConfusion hp) rfl⟩

/-! ## Claim C6: the composite scenario -/

/-- C6: for a CompositeTrain tuple with rank 0, no input head model, no
input trunk model and a local dataset with one sample, a successful
`schedule_traintuple` call spawns exactly one container whose command is
exactly `train --rank 0` (in particular it carries no model-path flags) and
persists exactly two output models, copied from the container outputs named
`output_head_model` and `output_trunk_model` in the output-models volume
into the permanent per-tuple model directory, filling the tuple's
`out_head_model` and `out_trunk_model` slots with their hashes and
permanent addresses. -/
theorem composite_train_rank0_run (wdir : String) (env : TrainEnv) (t : Traintuple) (s : St)
    (hk : t.kind = TrainKind.composite) (hr : t.rank = 0)
    (hh : t.in_head_model = none) (ht : t.in_trunk_model = none)
    (hloc : _is_local t.dataset.key = true) (hone : t.dataset.keys.length = 1)
    (h : (schedule_traintuple wdir env t s).res = Except.ok ()) :
    ∃ del,
      (schedule_traintuple wdir env t s).st.events = s.events ++ del ∧
      spawnCommands del = [ "train --rank 0" ] ∧
      copyPairs del =
        [(os_path_join (os_path_join (os_path_join wdir t.key) "output_models")
            "output_head_model",
          os_path_join (os_path_join (os_path_join wdir "models") t.key) "output_head_model"),
         (os_path_join (os_path_join (os_path_join wdir t.key) "output_models")
            "output_trunk_model",
          os_path_join (os_path_join (os_path_join wdir "models") t.key) "output_trunk_model")] ∧
      (schedule_traintuple wdir env t s).tup.out_head_model =
        some { hash_ := env.hash_file
                 (os_path_join (os_path_join (os_path_join wdir "models") t.key)
                   "output_head_model"),
               storage_address :=
                 os_path_join (os_path_join (os_path_join wdir "models") t.key)
                   "output_head_model" } ∧
      (schedule_traintuple wdir env t s).tup.out_trunk_model =
        some { hash_ := env.hash_file
                 (os_path_join (os_path_join (os_path_join wdir "models") t.key)
                   "output_trunk_model"),
               storage_address :=
                 os_path_join (os_path_join (os_path_join wdir "models") t.key)
                   "output_trunk_model" } := by
  obtain ⟨algo, ltw, halgo, hprep, hev, hom, hohm, hotm⟩ := train_run_ok_obs wdir env t s h
  have hk2 : t.markDoing.kind = TrainKind.composite := hk
  have hcmc : _get_command_models_composite_train t.markDoing
      (os_path_join (os_path_join wdir t.key) "input_models") _VOLUME_INPUT_MODELS_RO = "" := by
    unfold _get_command_models_composite_train
    rw [markDoing_train_in_head, markDoing_train_in_trunk, hh, ht]
    rfl
  have hbase : train_command_base t.markDoing = "train --rank 0" := by
    unfold train_command_base
    rw [markDoing_train_kind, markDoing_train_rank, markDoing_train_dataset, hk, hr]
    simp [hloc]
    decide
  unfold trainPrep at hprep
  dsimp only at hprep
  rw [prepare_input_models_composite_none (os_path_join wdir t.key) t.markDoing _ hk2
    (by rw [markDoing_train_in_head]; exact hh) (by rw [markDoing_train_in_trunk]; exact ht)]
    at hprep
  dsimp only at hprep
  rw [if_pos hk2] at hprep
  repeat' split at hprep
  all_goals try exact Except.noConfusion hprep
  rename_i x1 vs hpdv x2 logs hspawn htk x3 hs hsave1 x4 ts2 hsave2
  injection hprep with hprep2
  subst hprep2
  obtain ⟨del1, hev1, hsc1, hsv1, hlp1, hcp1⟩ := pdvTrain_ok_obs hpdv
  obtain ⟨hom1, hev2⟩ := save_ok _ _ _ _ _ _ hs.1 hs.2 hsave1
  obtain ⟨hom2, hev3⟩ := save_ok _ _ _ _ _ _ ts2.1 ts2.2 hsave2
  rw [hev]
  dsimp only at hohm hotm ⊢
  rw [hev3, hev2, doSpawn_snd_events, planLocalVolume_events, hev1]
  dsimp only
  simp only [List.append_assoc]
  refine ⟨_, rfl, ?_, ?_, ?_, ?_⟩
  · simp only [spawnCommands_append, spawnCommands_cons_spawn, spawnCommands_cons_copyFile,
      spawnCommands_nil, List.nil_append, List.append_nil, hsc1]
    rw [hcmc, str_append_empty, hbase]
  · simp only [copyPairs_append, copyPairs_cons_spawn, copyPairs_cons_copyFile,
      copyPairs_nil, List.nil_append, List.append_nil, hcp1]
    simp [Traintuple.markDoing]
  · rw [hohm, hom1]
    simp [Traintuple.markDoing]
  · rw [hotm, hom2]
    simp [Traintuple.markDoing]
  exact absurd hk2 ‹¬ t.markDoing.kind = TrainKind.composite›

/-- Witness for C6 at the concrete composite scenario run. -/
theorem composite_train_rank0_run_witness :
    exCompositeTuple.kind = TrainKind.composite ∧ exCompositeTuple.rank = 0 ∧
    exCompositeTuple.in_head_model = none ∧ exCompositeTuple.in_trunk_model = none ∧
    _is_local exCompositeTuple.dataset.key = true ∧
    exCompositeTuple.dataset.keys.length = 1 ∧
    (schedule_traintuple exWdir (exTrainEnv "tk1") exCompositeTuple emptySt).res =
      Except.ok () ∧
    (∃ del,
      (schedule_traintuple exWdir (exTrainEnv "tk1") exCompositeTuple emptySt).st.events =
        emptySt.events ++ del ∧
      spawnCommands del = [ "train --rank 0" ] ∧
      copyPairs del =
        [(os_path_join (os_path_join (os_path_join exWdir exCompositeTuple.key) "output_models")
            "output_head_model",
          os_path_join (os_path_join (os_path_join exWdir "models") exCompositeTuple.key)
            "output_head_model"),
         (os_path_join (os_path_join (os_path_join exWdir exCompositeTuple.key) "output_models")
            "output_trunk_model",
          os_path_join (os_path_join (os_path_join exWdir "models") exCompositeTuple.key)
            "output_trunk_model")] ∧
      (schedule_traintuple exWdir (exTrainEnv "tk1") exCompositeTuple emptySt).tup.out_head_model =
        some { hash_ := (exTrainEnv "tk1").hash_file
                 (os_path_join (os_path_join (os_path_join exWdir "models") exCompositeTuple.key)
                   "output_head_model"),
               storage_address :=
                 os_path_join (os_path_join (os_path_join exWdir "models") exCompositeTuple.key)
                   "output_head_model" } ∧
      (schedule_traintuple exWdir (exTrainEnv "tk1") exCompositeTuple emptySt).tup.out_trunk_model =
        some { hash_ := (exTrainEnv "tk1").hash_file
                 (os_path_join (os_path_join (os_path_join exWdir "models") exCompositeTuple.key)
                   "output_trunk_model"),
               storage_address :=
                 os_path_join (os_path_join (os_path_join exWdir "models") exCompositeTuple.key)
                   "output_trunk_model" }) :=
  ⟨rfl, rfl, rfl, rfl, rfl, rfl, rfl,
   composite_train_rank0_run exWdir (exTrainEnv "tk1") exCompositeTuple emptySt
     rfl rfl rfl rfl rfl rfl rfl⟩

/-! ## Claim C8: input-model linking of train / aggregate tuples -/

theorem linkInputModels_events (mv : String) (l : List InModel) (s : Ws) :
    (linkInputModels mv l s).events =
      s.events ++ l.enum.map
        (fun p => Event.link p.2.storage_address (os_path_join mv (model_link_name p.1 p.2))) := by
  unfold linkInputModels
  rw [linkInputModelsFrom_events]
  rfl

@[simp] theorem spawnVolumes_map_link {α : Type} (l : List α) (f g : α → String) :
    spawnVolumes (l.map (fun a => Event.link (f a) (g a))) = [] := by
  induction l with
  | nil => rfl
  | cons a l ih => simp [ih]

theorem os_path_join_data_ne_models (a : String) :
    os_path_join a "models" ≠ os_path_join a "data" := by
  intro he
  have hlen := congrArg String.length he
  unfold os_path_join at hlen
  rw [if_neg (show ¬ (str_starts_with "models" "/" = true) by decide),
    if_neg (show ¬ (str_starts_with "data" "/" = true) by decide)] at hlen
  by_cases h2 : (a = "" || str_ends_with a "/") = true
  · rw [if_pos h2, if_pos h2] at hlen
    simp only [String.length_append] at hlen
    rw [show ("models" : String).length = 6 from rfl,
      show ("data" : String).length = 4 from rfl] at hlen
    omega
  · rw [if_neg h2, if_neg h2] at hlen
    simp only [String.length_append] at hlen
    rw [show ("models" : String).length = 6 from rfl,
      show ("data" : String).length = 4 from rfl] at hlen
    omega

/-- The volumes returned by the data-volume preparation of
`schedule_traintuple` extend the input volumes with at most the opener and
the data-sample volume. -/
theorem pdvTrain_ok_fst {ed : Except Err Dataset} {sf : String → Except Err DataSample}
    {d : String} {t : Traintuple} {v : List (String × VolSpec)} {s : Ws}
    {vs : List (String × VolSpec) × Ws}
    (h : prepareDataVolumesTrain ed sf d t v s = Except.ok vs) :
    vs.1 = v ∨
      ∃ ds2, ed = Except.ok ds2 ∧
        (vs.1 = dictSet v ds2.opener_storage_address _VOLUME_OPENER ∨
         vs.1 = dictSet (dictSet v ds2.opener_storage_address _VOLUME_OPENER)
           (os_path_join d "data") _VOLUME_INPUT_DATASAMPLES) := by
  unfold prepareDataVolumesTrain at h
  repeat' split at h
  all_goals try exact Except.noConfusion h
  · rename_i hne x0 ds2 hlocal x dvs hgdv
    injection h with h2
    have hdv : dvs.1 = os_path_join d "data" := gdv_ok_dv _ _ _ _ _ _ hgdv
    right
    refine ⟨ds2, rfl, Or.inr ?_⟩
    rw [← h2]
    dsimp only
    rw [hdv]
  · rename_i hne x0 ds2 hlocal
    injection h with h2
    right
    refine ⟨ds2, rfl, Or.inl ?_⟩
    rw [← h2]
  · rename_i hne
    injection h with h2
    left
    rw [← h2]

/-- C8: for every train or aggregate tuple carrying a list of input models,
a successful `schedule_traintuple` call hard-links each input model into
the single read-write models volume under the name `<ordinal>_<model key>`
(ordinal = position in the `in_models` list, in list order), these names
are pairwise distinct, and the model-path arguments appended to the single
container command are exactly these names in the same order
(`train_model_args`).  The models volume is mounted read-write in the
container's volume dictionary; as dict insertion under an equal key would
overwrite it, its path is assumed distinct from the opener address and the
plan-local directory (true of real assets). -/
theorem train_inmodels_linking (wdir : String) (env : TrainEnv) (t : Traintuple) (s : St)
    (ms : List InModel) (hk : ¬ t.kind = TrainKind.composite) (hm : t.in_models = some ms)
    (hop : ∀ ds2, env.dataset = Except.ok ds2 →
      ds2.opener_storage_address ≠ os_path_join (os_path_join wdir t.key) "models")
    (hpl : ∀ pid, t.compute_plan_id = some pid →
      os_path_join (os_path_join (os_path_join wdir "compute_plans") "local") pid ≠
        os_path_join (os_path_join wdir t.key) "models")
    (h : (schedule_traintuple wdir env t s).res = Except.ok ()) :
    ∃ del v,
      (schedule_traintuple wdir env t s).st.events = s.events ++ del ∧
      linkPairs del = ms.enum.map (fun p =>
        (p.2.storage_address,
         os_path_join (os_path_join (os_path_join wdir t.key) "models")
           (model_link_name p.1 p.2))) ∧
      (ms.enum.map (fun p => model_link_name p.1 p.2)).Nodup ∧
      spawnCommands del = [train_command_base t ++ train_model_args ms] ∧
      spawnVolumes del = [v] ∧
      (os_path_join (os_path_join wdir t.key) "models", _VOLUME_MODELS_RW) ∈ v := by
  obtain ⟨algo, ltw, halgo, hprep, hev, hom, hohm, hotm⟩ := train_run_ok_obs wdir env t s h
  have hk2 : ¬ t.markDoing.kind = TrainKind.composite := hk
  have hm2 : t.markDoing.in_models = some ms := hm
  unfold trainPrep at hprep
  dsimp only at hprep
  rw [prepare_input_models_inmodels (os_path_join wdir t.key) t.markDoing _ ms hk2 hm2] at hprep
  dsimp only at hprep
  rw [if_neg hk2, hm2] at hprep
  dsimp only at hprep
  repeat' split at hprep
  all_goals try exact Except.noConfusion hprep
  rename_i x1 vs hpdv x2 logs hspawn hneg x3 msv hsave
  injection hprep with hprep2
  subst hprep2
  obtain ⟨del1, hev1, hsc1, hsv1, hlp1, hcp1⟩ := pdvTrain_ok_obs hpdv
  obtain ⟨hom1, hev2⟩ := save_ok _ _ _ _ _ _ msv.1 msv.2 hsave
  have hvmem : (os_path_join (os_path_join wdir t.key) "models", _VOLUME_MODELS_RW) ∈ vs.1 := by
    rcases pdvTrain_ok_fst hpdv with hfst | ⟨ds2, hds2, hfst | hfst⟩
    · rw [hfst]
      exact mem_dictSet_self _ _ _
    · rw [hfst]
      exact mem_dictSet_mono (mem_dictSet_self _ _ _) (fun he => hop ds2 hds2 he.symm)
    · rw [hfst]
      refine mem_dictSet_mono (mem_dictSet_mono (mem_dictSet_self _ _ _)
        (fun he => hop ds2 hds2 he.symm)) ?_
      exact fun he => os_path_join_data_ne_models (os_path_join wdir t.key) he
  rw [hev]
  dsimp only
  rw [hev2, doSpawn_snd_events, planLocalVolume_events, hev1, linkInputModels_events]
  dsimp only
  simp only [List.append_assoc]
  refine ⟨_, (planLocalVolume wdir t.markDoing.compute_plan_id vs.1 vs.2).1, rfl, ?_,
    link_names_nodup ms, ?_, ?_, ?_⟩
  · simp only [linkPairs_append, linkPairs_cons_spawn, linkPairs_cons_copyFile,
      linkPairs_nil, List.nil_append, List.append_nil, hlp1, linkPairs_map_link]
  · simp only [spawnCommands_append, spawnCommands_cons_spawn, spawnCommands_cons_copyFile,
      spawnCommands_nil, List.nil_append, List.append_nil, hsc1,
      spawnCommands_map_link, train_command_base_markDoing]
  · simp only [spawnVolumes_append, spawnVolumes_cons_spawn, spawnVolumes_cons_copyFile,
      spawnVolumes_nil, List.nil_append, List.append_nil, hsv1, spawnVolumes_map_link]
  · rw [planLocalVolume_fst]
    cases hcp : t.markDoing.compute_plan_id with
    | none => exact hvmem
    | some pid =>
      refine mem_dictSet_mono hvmem ?_
      refine fun he => hpl pid ?_ he.symm
      rw [markDoing_train_cpid] at hcp
      exact hcp

/-- Witness for C8 at a concrete successful plain train run with two input
models. -/
theorem train_inmodels_linking_witness :
    ¬ exTrainTupleModels.kind = TrainKind.composite ∧
    exTrainTupleModels.in_models = some [ exInModelA, exInModelB ] ∧
    (∀ ds2, (exTrainEnvModels "tm1").dataset = Except.ok ds2 →
      ds2.opener_storage_address ≠
        os_path_join (os_path_join exWdir exTrainTupleModels.key) "models") ∧
    (∀ pid, exTrainTupleModels.compute_plan_id = some pid →
      os_path_join (os_path_join (os_path_join exWdir "compute_plans") "local") pid ≠
        os_path_join (os_path_join exWdir exTrainTupleModels.key) "models") ∧
    (schedule_traintuple exWdir (exTrainEnvModels "tm1") exTrainTupleModels emptySt).res =
      Except.ok () ∧
    (∃ del v,
      (schedule_traintuple exWdir (exTrainEnvModels "tm1") exTrainTupleModels emptySt).st.events =
        emptySt.events ++ del ∧
      linkPairs del = ([ exInModelA, exInModelB ] : List InModel).enum.map (fun p =>
        (p.2.storage_address,
         os_path_join (os_path_join (os_path_join exWdir exTrainTupleModels.key) "models")
           (model_link_name p.1 p.2))) ∧
      (([ exInModelA, exInModelB ] : List InModel).enum.map
        (fun p => model_link_name p.1 p.2)).Nodup ∧
      spawnCommands del =
        [train_command_base exTrainTupleModels ++ train_model_args [ exInModelA, exInModelB ]] ∧
      spawnVolumes del = [v] ∧
      (os_path_join (os_path_join exWdir exTrainTupleModels.key) "models", _VOLUME_MODELS_RW)
        ∈ v) :=
  ⟨by decide, rfl,
   fun ds2 hds2 => by
     injection hds2 with h2
     rw [← h2]
     decide,
   fun _ hp => Option.noConfusion hp, rfl,
   train_inmodels_linking exWdir (exTrainEnvModels "tm1") exTrainTupleModels emptySt
     [ exInModelA, exInModelB ] (by decide) rfl
     (fun ds2 hds2 => by
       injection hds2 with h2
       rw [← h2]
       decide)
     (fun _ hp => Option.noConfusion hp) rfl⟩

end Substra
